import Mathlib

/-
Verification development for the whirlpool engine (Rust crate under
src/rust/engine/src/).  The Rust modules api.rs, curl_cffi.rs, db.rs,
models.rs and errors.rs are shallowly embedded below: pure functions become
Lean functions, the SQLite-backed store becomes explicit state passing over
association lists keyed by the tables' primary keys, and the external
libraries (serde_json's syntax layer, chrono's formatting/parsing, reqwest's
transport) are abstracted as explicit function parameters.  Machine integers
are Int/Nat with explicit bounds where Rust conversions can fail.
-/

set_option maxRecDepth 4096

/- ## errors.rs: EngineError (src/rust/engine/src/errors.rs, lines 1-15) -/

inductive EngineError where
  | invalidConfig (detail : String)
  | network (detail : String)
  | database (detail : String)
  | serialization (detail : String)
  | process (detail : String)
  | notFound (detail : String)
deriving DecidableEq, Repr

/- ## JSON values.  serde_json's syntactic layer is embedded as a tree:
a response body that is valid JSON is a JsonVal; a body that is not valid
JSON fails every serde decode, which the parse functions below also model
(both decoders returning none).  Numbers are Int (the claims involve only
integral fields). -/

inductive JsonVal where
  | obj (fields : List (String × JsonVal))
  | arr (elems : List JsonVal)
  | str (s : String)
  | num (n : Int)
  | jbool (b : Bool)
  | null

/- ## models.rs: the API data model (src/rust/engine/src/models.rs) -/

/- VideoItem (models.rs lines 71-82).  duration_seconds is u32, view_count
is u64: represented as Nat with the conversion bounds made explicit where
api/db code converts them. -/
structure VideoItem where
  id : String
  title : String
  page_url : String
  duration_seconds : Option Nat
  image_url : Option String
  network : Option String
  author_name : Option String
  extractor : Option String
  view_count : Option Nat
deriving DecidableEq, Repr

/- ResolvedVideo (models.rs lines 84-94). -/
structure ResolvedVideo where
  id : String
  title : String
  page_url : String
  stream_url : String
  thumbnail_url : Option String
  author_name : Option String
  extractor : Option String
  duration_seconds : Option Nat
deriving DecidableEq, Repr

/- FavoriteItem (models.rs lines 96-103). -/
structure FavoriteItem where
  video_id : String
  title : String
  image_url : Option String
  network : Option String
  added_at_epoch : Int
deriving DecidableEq, Repr

/- FilterSelection (models.rs lines 65-69). -/
structure FilterSelection where
  option_id : String
  choice_id : String
deriving DecidableEq, Repr

/- ApiStatusChoice (models.rs lines 182-186). -/
structure ApiStatusChoice where
  id : String
  title : Option String
deriving DecidableEq, Repr

/- ApiStatusChannelOption (models.rs lines 172-180).  The serde default on
`options` means an absent list decodes to []. -/
structure ApiStatusChannelOption where
  id : String
  title : Option String
  multi_select : Bool
  options : List ApiStatusChoice
deriving DecidableEq, Repr

/- ApiStatusChannel (models.rs lines 154-170); only the fields the embedded
functions read are kept (id, status, the default flag, options). -/
structure ApiStatusChannel where
  id : String
  name : Option String
  status : Option String
  isDefault : Bool
  options : List ApiStatusChannelOption
deriving DecidableEq, Repr

/- ApiStatusResponse (models.rs lines 120-144), restricted to the `channels`
field that channel selection reads. -/
structure ApiStatusResponse where
  channels : Option (List ApiStatusChannel)
deriving DecidableEq, Repr

/- ApiVideoRecord (models.rs lines 188-205).  Field aliases: image/thumb,
network/channel, author_name/uploader, view_count/views. -/
structure ApiVideoRecord where
  id : Option String
  hashed_url : Option String
  title : Option String
  url : Option String
  duration : Option Nat
  image : Option String
  network : Option String
  author_name : Option String
  extractor : Option String
  view_count : Option Nat
deriving DecidableEq, Repr

/- ApiVideoEnvelope (models.rs lines 146-152): both fields carry
serde(default), so an object with neither key decodes to two empty lists. -/
structure ApiVideoEnvelope where
  videos : List ApiVideoRecord
  items : List ApiVideoRecord
deriving DecidableEq, Repr

/- ## serde decoding of the video shapes.  These model serde_json's derived
Deserialize for ApiVideoRecord / Vec<ApiVideoRecord> / ApiVideoEnvelope on a
JsonVal tree: unknown object keys are ignored, a known key seen twice
(directly or through an alias) is an error, an Option field accepts null,
wrong value types are errors, and a struct may also decode from a JSON
array positionally (serde's visit_seq), with serde(default) filling fields
the sequence does not provide. -/

def decodeOptString : JsonVal → Option (Option String)
  | JsonVal.str s => some (some s)
  | JsonVal.null => some none
  | _ => none

/- Option<u32> / Option<u64> fields: a non-negative integer in range. -/
def decodeOptNat (bound : Nat) : JsonVal → Option (Option Nat)
  | JsonVal.num n => if 0 ≤ n ∧ n < (bound : Int) then some (some n.toNat) else none
  | JsonVal.null => some none
  | _ => none

/- Accumulator for decodeApiVideoRecord: outer none = field not yet seen. -/
structure RecordAcc where
  id : Option (Option String) := none
  hashed_url : Option (Option String) := none
  title : Option (Option String) := none
  url : Option (Option String) := none
  duration : Option (Option Nat) := none
  image : Option (Option String) := none
  network : Option (Option String) := none
  author_name : Option (Option String) := none
  extractor : Option (Option String) := none
  view_count : Option (Option Nat) := none

def setOnce (slot : Option α) (v : Option α) : Option (Option α) :=
  match slot, v with
  | some _, _ => none
  | none, v => some v

def recordFieldStep (acc : RecordAcc) (key : String) (v : JsonVal) : Option RecordAcc :=
  if key = "id" then
    (decodeOptString v).bind fun x => (setOnce acc.id x).map fun y => { acc with id := y }
  else if key = "hashedUrl" then
    (decodeOptString v).bind fun x => (setOnce acc.hashed_url x).map fun y => { acc with hashed_url := y }
  else if key = "title" then
    (decodeOptString v).bind fun x => (setOnce acc.title x).map fun y => { acc with title := y }
  else if key = "url" then
    (decodeOptString v).bind fun x => (setOnce acc.url x).map fun y => { acc with url := y }
  else if key = "duration" then
    (decodeOptNat (2 ^ 32) v).bind fun x => (setOnce acc.duration x).map fun y => { acc with duration := y }
  else if key = "image" ∨ key = "thumb" then
    (decodeOptString v).bind fun x => (setOnce acc.image x).map fun y => { acc with image := y }
  else if key = "network" ∨ key = "channel" then
    (decodeOptString v).bind fun x => (setOnce acc.network x).map fun y => { acc with network := y }
  else if key = "author_name" ∨ key = "uploader" then
    (decodeOptString v).bind fun x => (setOnce acc.author_name x).map fun y => { acc with author_name := y }
  else if key = "extractor" then
    (decodeOptString v).bind fun x => (setOnce acc.extractor x).map fun y => { acc with extractor := y }
  else if key = "view_count" ∨ key = "views" then
    (decodeOptNat (2 ^ 64) v).bind fun x => (setOnce acc.view_count x).map fun y => { acc with view_count := y }
  else
    some acc

def recordFields : List (String × JsonVal) → RecordAcc → Option ApiVideoRecord
  | [], acc => some
      { id := acc.id.getD none, hashed_url := acc.hashed_url.getD none,
        title := acc.title.getD none, url := acc.url.getD none,
        duration := acc.duration.getD none, image := acc.image.getD none,
        network := acc.network.getD none, author_name := acc.author_name.getD none,
        extractor := acc.extractor.getD none, view_count := acc.view_count.getD none }
  | (k, v) :: rest, acc => (recordFieldStep acc k v).bind (recordFields rest)

def decodeApiVideoRecord : JsonVal → Option ApiVideoRecord
  | JsonVal.obj fields => recordFields fields {}
  | _ => none

def decodeRecords : List JsonVal → Option (List ApiVideoRecord)
  | [] => some []
  | j :: rest =>
    (decodeApiVideoRecord j).bind fun r => (decodeRecords rest).map (fun rs => r :: rs)

def decodeRecordList : JsonVal → Option (List ApiVideoRecord)
  | JsonVal.arr elems => decodeRecords elems
  | _ => none

/- Envelope object fields ("videos" / "items", duplicates are errors,
unknown keys ignored). -/
def envelopeFields : List (String × JsonVal) → Option (List ApiVideoRecord) →
    Option (List ApiVideoRecord) → Option ApiVideoEnvelope
  | [], vs, its => some { videos := vs.getD [], items := its.getD [] }
  | (k, v) :: rest, vs, its =>
    if k = "videos" then
      match vs with
      | some _ => none
      | none => (decodeRecordList v).bind fun xs => envelopeFields rest (some xs) its
    else if k = "items" then
      match its with
      | some _ => none
      | none => (decodeRecordList v).bind fun xs => envelopeFields rest vs (some xs)
    else envelopeFields rest vs its

def decodeApiVideoEnvelope : JsonVal → Option ApiVideoEnvelope
  | JsonVal.obj fields => envelopeFields fields none none
  | JsonVal.arr [] => some { videos := [], items := [] }
  | JsonVal.arr [a] => (decodeRecordList a).map fun vs => { videos := vs, items := [] }
  | JsonVal.arr [a, b] =>
      (decodeRecordList a).bind fun vs =>
        (decodeRecordList b).map fun its => { videos := vs, items := its }
  | _ => none

/- Rust's str::trim, embedded over the character list so that it reduces
in the kernel (the claims only exercise ASCII whitespace; Rust trims
Unicode White_Space, Lean's built-in String.trim the same ASCII set). -/
def isWsChar (c : Char) : Bool :=
  c = ' ' || c = '\t' || c = '\n' || c = '\r'

def str_trim (s : String) : String :=
  String.mk (((s.data.dropWhile isWsChar).reverse.dropWhile isWsChar).reverse)

/- ## api.rs: channel selection (src/rust/engine/src/api.rs, lines 170-194) -/

/- select_channel (api.rs lines 170-181): first channel flagged default,
else first with status "active", else the first channel; none when the
channel list is absent (and, since every find falls through, when it is
empty). -/
def select_channel (status : ApiStatusResponse) : Option ApiStatusChannel :=
  match status.channels with
  | none => none
  | some channels =>
    ((channels.find? (fun c => c.isDefault)).or
      (channels.find? (fun c => c.status = some "active"))).or
      channels.head?

/- select_channel_with_id_or_default (api.rs lines 183-194): an explicit
channel id is honored only when non-blank after trimming and matching a
known channel id; otherwise the default selection runs. -/
def select_channel_with_id_or_default (status : ApiStatusResponse)
    (channel_id : Option String) : Option ApiStatusChannel :=
  match status.channels with
  | none => none
  | some channels =>
    match channel_id.filter (fun id => str_trim id ≠ "") with
    | some cid =>
      match channels.find? (fun c => c.id = cid) with
      | some c => some c
      | none => select_channel status
    | none => select_channel status

/- The channel-resolution step of discover_videos_with_filters (api.rs
lines 62-68): a failed selection is the NotFound error. -/
def discover_resolve_channel (status : ApiStatusResponse)
    (channel_id : Option String) : Except EngineError ApiStatusChannel :=
  match select_channel_with_id_or_default status channel_id with
  | some c => Except.ok c
  | none => Except.error (EngineError.notFound "no active channel returned by /api/status")

/- ## api.rs: the videos request payload (api.rs lines 226-273).
serde_json::Map is modelled as an association list with overwriting insert;
only insertion and key lookup are used, so the map's internal ordering is
irrelevant to every statement below. -/

def payload_insert (payload : List (String × String)) (key value : String) :
    List (String × String) :=
  if payload.any (fun kv => kv.1 = key) then
    payload.map (fun kv => if kv.1 = key then (key, value) else kv)
  else payload ++ [(key, value)]

def payload_get (payload : List (String × String)) (key : String) : Option String :=
  (payload.find? (fun kv => kv.1 = key)).map (fun kv => kv.2)

/- The HashMap of explicit selections (api.rs lines 239-249): blank option
or choice ids (after trim) are dropped; a later duplicate key overwrites. -/
def explicit_selections (selections : List FilterSelection) : List (String × String) :=
  selections.foldl (fun acc sel =>
    if str_trim sel.option_id = "" ∨ str_trim sel.choice_id = "" then acc
    else payload_insert acc (str_trim sel.option_id) (str_trim sel.choice_id)) []

/- One option's contribution (api.rs lines 251-270): skip options whose id
trims to blank or with no choices; a valid explicit selection wins, else
the first listed choice. -/
def option_selected_id (expl : List (String × String))
    (opt : ApiStatusChannelOption) : Option String :=
  match payload_get expl opt.id with
  | some cand =>
    match opt.options.find? (fun c => c.id = cand) with
    | some c => some c.id
    | none => (opt.options.head?).map (fun c => c.id)
  | none => (opt.options.head?).map (fun c => c.id)

def build_option_step (expl : List (String × String))
    (acc : List (String × String)) (opt : ApiStatusChannelOption) :
    List (String × String) :=
  if str_trim opt.id = "" ∨ opt.options.isEmpty then acc
  else
    match option_selected_id expl opt with
    | some sid => payload_insert acc opt.id sid
    | none => acc

def build_videos_payload (channel : ApiStatusChannel) (query : String)
    (page limit : Nat) (selections : List FilterSelection) :
    List (String × String) :=
  let base :=
    payload_insert (payload_insert (payload_insert (payload_insert []
      "channel" channel.id) "query" query) "page" (toString page))
      "perPage" (toString limit)
  let expl := explicit_selections selections
  channel.options.foldl (build_option_step expl) base

/- ## api.rs: video-list parsing (api.rs lines 275-321) -/

/- map_video_record (api.rs lines 300-321). -/
def map_video_record (record : ApiVideoRecord) (default_channel_id : String) :
    VideoItem :=
  let page_url := record.url.getD ""
  let id :=
    ((record.id.filter (fun v => v ≠ "")).or
      (record.hashed_url.filter (fun v => v ≠ ""))).getD page_url
  { id := id,
    title := record.title.getD "Untitled",
    page_url := page_url,
    duration_seconds := record.duration,
    image_url := record.image,
    network := record.network.or (some default_channel_id),
    author_name := record.author_name,
    extractor := record.extractor,
    view_count := record.view_count }

/- parse_videos (api.rs lines 275-298): envelope first (items used when
videos is empty), then a bare array, else the Serialization error. -/
def parse_videos (body : JsonVal) (default_channel_id : String) :
    Except EngineError (List VideoItem) :=
  match decodeApiVideoEnvelope body with
  | some envelope =>
    let source := if envelope.videos.isEmpty then envelope.items else envelope.videos
    Except.ok (source.map (fun r => map_video_record r default_channel_id))
  | none =>
    match decodeRecordList body with
    | some videos =>
      Except.ok (videos.map (fun r => map_video_record r default_channel_id))
    | none => Except.error (EngineError.serialization "unexpected videos payload shape")

/- ## api.rs: the fetch bridge decision logic (api.rs lines 87-168) -/

/- should_try_curl_cffi (api.rs lines 163-168): FORBIDDEN = 403,
TOO_MANY_REQUESTS = 429, SERVICE_UNAVAILABLE = 503. -/
def should_try_curl_cffi (status : Nat) : Bool :=
  status == 403 || status == 429 || status == 503

/- reqwest's StatusCode::is_success: the 2xx class. -/
def status_is_success (status : Nat) : Bool :=
  200 ≤ status && status < 300

/- What the primary reqwest attempt produced: a transport-level failure or
a response with its status and body text. -/
inductive PrimaryOutcome where
  | transportError (msg : String)
  | response (status : Nat) (body : String)

/- The observable outcome of fetch_text (api.rs lines 87-160), with the
invocation of the secondary fetch mechanism left symbolic so that the
arguments it receives are visible: the call site passes exactly the method,
url and JSON body of the primary attempt. -/
inductive FetchOutcome where
  | ok (body : String)
  | secondary (method url : String) (jsonBody : Option String)
  | err (status : Nat) (url : String) (body : String)
  | transportErr (msg : String)
deriving DecidableEq, Repr

def fetch_text_decision (curl_cffi_script_path : Option String)
    (method url : String) (json_body : Option String)
    (primary : PrimaryOutcome) : FetchOutcome :=
  match primary with
  | PrimaryOutcome.transportError msg =>
    match curl_cffi_script_path with
    | some _ => FetchOutcome.secondary method url json_body
    | none => FetchOutcome.transportErr msg
  | PrimaryOutcome.response status body =>
    if status_is_success status then FetchOutcome.ok body
    else if should_try_curl_cffi status && curl_cffi_script_path.isSome then
      FetchOutcome.secondary method url json_body
    else FetchOutcome.err status url body

/- The terminal Network error for a non-2xx status (api.rs lines 157-159)
carries the status and the response body in its detail string; its
formatted text is reconstructed from the structured err outcome. -/
def status_error_detail (status : Nat) (url body : String) : EngineError :=
  EngineError.network
    ("request failed with status " ++ toString status ++ " at " ++ url ++ ": " ++ body)

/- ## curl_cffi.rs (src/rust/engine/src/curl_cffi.rs, lines 6-40): the
secondary fetch bridge as the file defines it.  Its parameters after the
python executable and script path are a url and a list of query key/value
pairs - there is no method or JSON-body parameter - and the subprocess
argv it builds is [script_path, url, query_json].  (api.rs lines 126-133
and 146-153 instead call it with five arguments: python executable, script
path, method, url, json body.) -/
def fetch_with_curl_cffi_argv (script_path url : String)
    (query : List (String × String)) (encodeQueryJson : List (String × String) → String) :
    List String :=
  [script_path, url, encodeQueryJson query]

/- ## db.rs: timestamp helpers (src/rust/engine/src/db.rs, lines 858-916) -/

/- Rust's str::parse::<i64>: an optional sign, then decimal digits, failing
on overflow past the i64 range (an overflow then also fails the later
textual parses, as in the Rust fallthrough). -/
def digitsVal (l : List Char) : Option Nat :=
  if l ≠ [] ∧ l.all Char.isDigit then
    some (l.foldl (fun a c => a * 10 + (c.toNat - 48)) 0)
  else none

def parseI64 (s : String) : Option Int :=
  let signed : Int × List Char :=
    match s.data with
    | '-' :: rest => (-1, rest)
    | '+' :: rest => (1, rest)
    | l => (1, l)
  match digitsVal signed.2 with
  | some m =>
    let n : Int := signed.1 * m
    if -(2 ^ 63) ≤ n ∧ n ≤ 2 ^ 63 - 1 then some n else none
  | none => none

/- chrono's textual parsers, abstracted: DateTime::parse_from_rfc3339 and
the three NaiveDateTime formats of CANDIDATE_FORMATS (db.rs lines 886-890),
each as a partial map from text to epoch seconds. -/
structure TimeParsers where
  rfc3339 : String → Option Int
  fmtFracT : String → Option Int
  fmtFracSpace : String → Option Int
  fmtPlainT : String → Option Int

/- parse_timestamp_to_epoch_seconds (db.rs lines 869-899): trim; blank is a
miss; a raw integer above 10_000_000_000 is epoch milliseconds (divide by
1000), otherwise epoch seconds; then RFC-3339; then the legacy local-time
formats in order. -/
def parse_timestamp_to_epoch_seconds (tp : TimeParsers) (value : String) : Option Int :=
  let trimmed := str_trim value
  if trimmed = "" then none
  else
    match parseI64 trimmed with
    | some raw => if 10000000000 < raw then some (raw / 1000) else some raw
    | none =>
      match tp.rfc3339 trimmed with
      | some t => some t
      | none =>
        match tp.fmtFracT trimmed with
        | some t => some t
        | none =>
          match tp.fmtFracSpace trimmed with
          | some t => some t
          | none => tp.fmtPlainT trimmed

/- fallback_url (db.rs lines 901-903). -/
def fallback_url (video_id : String) : String :=
  "local://video/" ++ video_id

/- format_resolved_cache_id (db.rs lines 905-907). -/
def format_resolved_cache_id (page_url : String) : String :=
  "resolved:" ++ page_url

/- non_empty_str (db.rs lines 909-916). -/
def non_empty_str (value : String) : Option String :=
  if str_trim value = "" then none else some (str_trim value)

/- ## db.rs: the persistent store state.

The unified video_details table (db.rs lines 47-73) is an association list
of rows keyed by the primary key `id`; the columns never read or written by
the embedded operations (preview, uploaderUrl, tags, flags, lastWatchDate,
uploadedAt, rating, userViews, aspectRatio, session, adData) are omitted.
NULL is Option.none; the schema's DEFAULT (0) on views/duration applies
when an INSERT omits those columns. -/
structure VideoRow where
  id : String
  url : String
  title : Option String
  thumb : Option String
  dateAdded : Option String
  views : Option Int
  duration : Option Int
  uploader : Option String
  network : Option String
  lastUpdated : Option String
  favoriteDate : Option String
  allFormats : Option String
  rawData : Option String
  cacheDate : Option String
deriving DecidableEq, Repr

/- The legacy-generation tables read by migrate_legacy_schema (db.rs lines
610-855), each keyed by its legacy primary key. -/
structure LegacyMetaRow where
  key : String
  value : String
deriving DecidableEq, Repr

structure LegacyCacheRow where
  video_id : String
  payload_json : String
  updated_at : Int
deriving DecidableEq, Repr

structure LegacyFavRow where
  video_id : String
  title : String
  image_url : Option String
  network : Option String
  added_at : Int
deriving DecidableEq, Repr

structure LegacyResolvedRow where
  page_url : String
  payload_json : String
  updated_at : Int
deriving DecidableEq, Repr

/- The store: user_preferences (id -> preferenceValue) and video_details,
plus the four legacy tables, each Option-wrapped because table_exists
(db.rs lines 626-636) drives the migration: none = the table is absent
from sqlite_master. -/
structure DBState where
  user_preferences : List (String × Option String)
  video_details : List VideoRow
  legacy_meta : Option (List LegacyMetaRow)
  legacy_video_cache : Option (List LegacyCacheRow)
  legacy_favorites : Option (List LegacyFavRow)
  legacy_resolved : Option (List LegacyResolvedRow)
deriving DecidableEq, Repr

/- External collaborators of db.rs, as explicit functions: serde_json
encode/decode of the cached payloads, and chrono's formatting of epoch
seconds to the RFC-3339 text now_iso/epoch_seconds_to_iso produce.
isoValid models Utc.timestamp_opt returning a single in-range value;
epoch_seconds_to_iso (db.rs lines 862-867) falls back to formatting the
current instant when the epoch is out of chrono's range. -/
structure DbEnv where
  decodeVideoItem : String → Option VideoItem
  encodeVideoItem : VideoItem → String
  decodeResolved : String → Option ResolvedVideo
  encodeResolved : ResolvedVideo → String
  isoOfEpoch : Int → String
  isoValid : Int → Bool
  tp : TimeParsers

def epoch_seconds_to_iso (env : DbEnv) (now epoch : Int) : String :=
  if env.isoValid epoch then env.isoOfEpoch epoch else env.isoOfEpoch now

/- A generic INSERT ... ON CONFLICT("id") DO UPDATE upsert on
video_details: when a row with the new row's id exists, the merge function
combines the current row with the excluded (new) row per the statement's
SET list; otherwise the new row is inserted. -/
def upsertVideoRow (table : List VideoRow) (newRow : VideoRow)
    (merge : VideoRow → VideoRow → VideoRow) : List VideoRow :=
  if table.any (fun r => r.id = newRow.id) then
    table.map (fun r => if r.id = newRow.id then merge r newRow else r)
  else table ++ [newRow]

/- The user_preferences upsert (db.rs lines 340-351 and 648-656). -/
def prefUpsert (prefs : List (String × Option String)) (key value : String) :
    List (String × Option String) :=
  if prefs.any (fun kv => kv.1 = key) then
    prefs.map (fun kv => if kv.1 = key then (key, some value) else kv)
  else prefs ++ [(key, some value)]

/- ## db.rs: legacy migration (db.rs lines 610-855) -/

/- migrate_legacy_meta (db.rs lines 638-658): move key/value rows verbatim
into user_preferences by upsert. -/
def run_meta_rows (rows : List LegacyMetaRow)
    (prefs : List (String × Option String)) : List (String × Option String) :=
  rows.foldl (fun acc r => prefUpsert acc r.key r.value) prefs

/- The row built from one legacy video_cache entry (db.rs lines 670-731):
a parsable payload contributes its metadata, an unparsable one the minimal
(id, synthesized url, title = id) row. -/
def vc_new_row (env : DbEnv) (now : Int) (r : LegacyCacheRow) : VideoRow :=
  let iso := epoch_seconds_to_iso env now r.updated_at
  match env.decodeVideoItem r.payload_json with
  | some v =>
    { id := r.video_id, url := v.page_url, title := some v.title,
      thumb := v.image_url, dateAdded := some iso,
      views := v.view_count.bind (fun c => if (c : Int) ≤ 2 ^ 63 - 1 then some (c : Int) else none),
      duration := v.duration_seconds.map (fun d => (d : Int)),
      uploader := v.author_name, network := v.network, lastUpdated := some iso,
      favoriteDate := none, allFormats := none,
      rawData := some r.payload_json, cacheDate := some iso }
  | none =>
    { id := r.video_id, url := fallback_url r.video_id, title := some r.video_id,
      thumb := none, dateAdded := some iso, views := none, duration := none,
      uploader := none, network := none, lastUpdated := some iso,
      favoriteDate := none, allFormats := none,
      rawData := some r.payload_json, cacheDate := some iso }

/- ON CONFLICT SET list of the video_cache upsert (db.rs lines 705-715):
url, title, thumb, views, duration, uploader, network, lastUpdated,
rawData, cacheDate come from excluded; dateAdded, favoriteDate, allFormats
stay. -/
def vcMerge (cur exc : VideoRow) : VideoRow :=
  { cur with
      url := exc.url, title := exc.title, thumb := exc.thumb,
      views := exc.views, duration := exc.duration, uploader := exc.uploader,
      network := exc.network, lastUpdated := exc.lastUpdated,
      rawData := exc.rawData, cacheDate := exc.cacheDate }

def run_vc_rows (env : DbEnv) (now : Int) (rows : List LegacyCacheRow)
    (table : List VideoRow) : List VideoRow :=
  rows.foldl (fun t r => upsertVideoRow t (vc_new_row env now r) vcMerge) table

/- The row built from one legacy favorites entry (db.rs lines 748-782):
url prefers the already-known url of the row with this id; the INSERT
omits views/duration, so the schema default 0 applies. -/
def fav_new_row (env : DbEnv) (now : Int) (table : List VideoRow)
    (r : LegacyFavRow) : VideoRow :=
  let iso := epoch_seconds_to_iso env now r.added_at
  let existing_url := (table.find? (fun row => row.id = r.video_id)).map (fun row => row.url)
  { id := r.video_id, url := existing_url.getD (fallback_url r.video_id),
    title := some r.title, thumb := r.image_url, dateAdded := some iso,
    views := some 0, duration := some 0, uploader := none,
    network := r.network, lastUpdated := some iso,
    favoriteDate := some iso, allFormats := none, rawData := none,
    cacheDate := none }

/- ON CONFLICT SET list of the favorites upsert (db.rs lines 765-771):
title, thumb, network, favoriteDate, lastUpdated from excluded; the url
and everything else stay. -/
def favMerge (cur exc : VideoRow) : VideoRow :=
  { cur with
      title := exc.title, thumb := exc.thumb, network := exc.network,
      favoriteDate := exc.favoriteDate, lastUpdated := exc.lastUpdated }

def run_fav_rows (env : DbEnv) (now : Int) (rows : List LegacyFavRow)
    (table : List VideoRow) : List VideoRow :=
  rows.foldl (fun t r => upsertVideoRow t (fav_new_row env now t r) favMerge) table

/- The derived id and title of one legacy resolved_cache entry (db.rs
lines 800-811). -/
def rc_row_id (env : DbEnv) (r : LegacyResolvedRow) : String :=
  match env.decodeResolved r.payload_json with
  | some v => if str_trim v.id = "" then format_resolved_cache_id r.page_url else str_trim v.id
  | none => format_resolved_cache_id r.page_url

def rc_row_title (env : DbEnv) (r : LegacyResolvedRow) : String :=
  match env.decodeResolved r.payload_json with
  | some v => if str_trim v.title = "" then "Resolved Video" else str_trim v.title
  | none => "Resolved Video"

/- The UPDATE ... WHERE url = page_url applied to one row (db.rs lines
813-824): allFormats, cacheDate, lastUpdated set; title only when the new
title is non-blank (COALESCE(NULLIF(t,''), title)). -/
def rcUpdateRow (payload iso title : String) (row : VideoRow) : VideoRow :=
  { row with
      allFormats := some payload, cacheDate := some iso,
      lastUpdated := some iso,
      title := if title = "" then row.title else some title }

/- The fallback INSERT row (db.rs lines 826-852); views/duration omitted,
default 0. -/
def rc_new_row (id url title iso payload : String) : VideoRow :=
  { id := id, url := url, title := some title, thumb := none,
    dateAdded := some iso, views := some 0, duration := some 0,
    uploader := none, network := none, lastUpdated := some iso,
    favoriteDate := none, allFormats := some payload,
    rawData := some payload, cacheDate := some iso }

/- ON CONFLICT SET list of the resolved-cache insert (db.rs lines 833-839):
url, title, lastUpdated, cacheDate, allFormats, rawData from excluded. -/
def rcMerge (cur exc : VideoRow) : VideoRow :=
  { cur with
      url := exc.url, title := exc.title,
      lastUpdated := exc.lastUpdated, cacheDate := exc.cacheDate,
      allFormats := exc.allFormats, rawData := exc.rawData }

def rc_step (env : DbEnv) (now : Int) (table : List VideoRow)
    (r : LegacyResolvedRow) : List VideoRow :=
  let iso := epoch_seconds_to_iso env now r.updated_at
  let title := rc_row_title env r
  if table.any (fun row => row.url = r.page_url) then
    table.map (fun row =>
      if row.url = r.page_url then rcUpdateRow r.payload_json iso title row else row)
  else
    upsertVideoRow table (rc_new_row (rc_row_id env r) r.page_url title iso r.payload_json) rcMerge

def run_rc_rows (env : DbEnv) (now : Int) (rows : List LegacyResolvedRow)
    (table : List VideoRow) : List VideoRow :=
  rows.foldl (fun t r => rc_step env now t r) table

/- migrate_legacy_schema (db.rs lines 610-624): each legacy table present
in sqlite_master is folded into the unified model, in order; absent tables
are skipped.  No step drops a legacy table. -/
def migrate_legacy_schema (env : DbEnv) (now : Int) (s : DBState) : DBState :=
  let s1 :=
    match s.legacy_meta with
    | some rows => { s with user_preferences := run_meta_rows rows s.user_preferences }
    | none => s
  let s2 :=
    match s1.legacy_video_cache with
    | some rows => { s1 with video_details := run_vc_rows env now rows s1.video_details }
    | none => s1
  let s3 :=
    match s2.legacy_favorites with
    | some rows => { s2 with video_details := run_fav_rows env now rows s2.video_details }
    | none => s2
  match s3.legacy_resolved with
  | some rows => { s3 with video_details := run_rc_rows env now rows s3.video_details }
  | none => s3

/- Database::init (db.rs lines 24-91): CREATE TABLE IF NOT EXISTS for the
unified schema (a no-op on the state: the unified tables are always part
of DBState, empty when fresh), then the legacy migration. -/
def db_init (env : DbEnv) (now : Int) (s : DBState) : DBState :=
  migrate_legacy_schema env now s

/- ## db.rs: resolved-stream cache (db.rs lines 143-237) -/

/- cache_resolved_video (db.rs lines 143-199): update every row matching
the page url in place; when none matches, insert keyed by the resolved id
(synthesized from the url when that id trims to blank), with the trimmed
non-blank title or "Resolved Video". -/
def cache_resolved_video (env : DbEnv) (now : Int) (s : DBState)
    (page_url : String) (video : ResolvedVideo) : DBState :=
  let payload := env.encodeResolved video
  let now_iso := env.isoOfEpoch now
  if s.video_details.any (fun row => row.url = page_url) then
    { s with video_details := s.video_details.map (fun row =>
        if row.url = page_url then
          { row with
              allFormats := some payload, cacheDate := some now_iso,
              lastUpdated := some now_iso,
              title := if video.title = "" then row.title else some video.title }
        else row) }
  else
    let resolved_id :=
      if str_trim video.id = "" then format_resolved_cache_id page_url else video.id
    let title := (non_empty_str video.title).getD "Resolved Video"
    { s with
        video_details := upsertVideoRow s.video_details
          (rc_new_row resolved_id page_url title now_iso payload) rcMerge }

/- The candidate rows of get_cached_resolved_video's SELECT (db.rs lines
209-217): url matches and allFormats is non-NULL and non-blank. -/
def blankOrNull : Option String → Bool
  | some f => str_trim f = ""
  | none => true

def cacheCandidates (table : List VideoRow) (page_url : String) : List VideoRow :=
  table.filter (fun row => row.url = page_url && !(blankOrNull row.allFormats))

/- ORDER BY "cacheDate" DESC LIMIT 1 over TEXT values: SQLite's BINARY
collation is byte order, which for UTF-8 agrees with the codepoint order
of Lean's String ordering; a NULL sorts after every value in DESC order. -/
def cacheDateLt : Option String → Option String → Prop
  | none, some _ => True
  | none, none => False
  | some _, none => False
  | some a, some b => a < b

instance : DecidableRel cacheDateLt := fun a b => by
  cases a <;> cases b <;> simp [cacheDateLt] <;> infer_instance

def bestCandidate (rows : List VideoRow) : Option VideoRow :=
  rows.foldl (fun acc row =>
    match acc with
    | none => some row
    | some b => if cacheDateLt b.cacheDate row.cacheDate then some row else some b) none

/- get_cached_resolved_video (db.rs lines 201-237).  rusqlite reads the
selected cacheDate as a String: a NULL there is a Database error; an
unparsable or expired timestamp, and a payload serde cannot decode, are
cache misses (Ok(None)), never errors. -/
def get_cached_resolved_video (env : DbEnv) (now : Int) (s : DBState)
    (page_url : String) (max_age_seconds : Int) :
    Except EngineError (Option ResolvedVideo) :=
  match bestCandidate (cacheCandidates s.video_details page_url) with
  | none => Except.ok none
  | some row =>
    match row.allFormats, row.cacheDate with
    | some payload, some cache_date =>
      match parse_timestamp_to_epoch_seconds env.tp cache_date with
      | none => Except.ok none
      | some ts =>
        if max_age_seconds < now - ts then Except.ok none
        else Except.ok (env.decodeResolved payload)
    | some _, none => Except.error (EngineError.database "cacheDate is NULL")
    | none, _ => Except.ok none

/- ## db.rs: favorites (db.rs lines 239-338) -/

/- The row written by add_favorite (db.rs lines 252-285).  view_count is
u64 converted through i64::try_from (None past i64::MAX); the INSERT omits
allFormats/cacheDate (NULL on a fresh row). -/
def add_fav_row (env : DbEnv) (now : Int) (video : VideoItem) : VideoRow :=
  let now_iso := env.isoOfEpoch now
  { id := video.id, url := video.page_url, title := some video.title,
    thumb := video.image_url, dateAdded := some now_iso,
    views := video.view_count.bind (fun c => if (c : Int) ≤ 2 ^ 63 - 1 then some (c : Int) else none),
    duration := video.duration_seconds.map (fun d => (d : Int)),
    uploader := video.author_name, network := video.network,
    lastUpdated := some now_iso, favoriteDate := some now_iso,
    allFormats := none, rawData := some (env.encodeVideoItem video),
    cacheDate := none }

/- ON CONFLICT SET list of add_favorite (db.rs lines 259-269): url, title,
thumb, views, duration, uploader, network, lastUpdated, favoriteDate,
rawData from excluded; dateAdded, allFormats, cacheDate stay. -/
def addFavMerge (cur exc : VideoRow) : VideoRow :=
  { cur with
      url := exc.url, title := exc.title, thumb := exc.thumb,
      views := exc.views, duration := exc.duration, uploader := exc.uploader,
      network := exc.network, lastUpdated := exc.lastUpdated,
      favoriteDate := exc.favoriteDate, rawData := exc.rawData }

/- add_favorite (db.rs lines 239-288); the returned FavoriteItem echoes
the input and is not part of the stored state. -/
def add_favorite (env : DbEnv) (now : Int) (s : DBState) (video : VideoItem) : DBState :=
  { s with video_details :=
      upsertVideoRow s.video_details (add_fav_row env now video) addFavMerge }

/- remove_favorite (db.rs lines 290-301): UPDATE SET favoriteDate = NULL
WHERE id = video_id; the Bool is rows-affected > 0. -/
def remove_favorite (s : DBState) (video_id : String) : DBState × Bool :=
  ({ s with video_details := s.video_details.map (fun row =>
      if row.id = video_id then { row with favoriteDate := none } else row) },
    s.video_details.any (fun row => row.id = video_id))

/- Insertion sort for ORDER BY "favoriteDate" DESC (db.rs line 311); the
favoriteDate of every selected row is non-NULL. -/
def insertFavDesc (x : VideoRow) : List VideoRow → List VideoRow
  | [] => [x]
  | y :: ys =>
    if cacheDateLt y.favoriteDate x.favoriteDate then x :: y :: ys
    else y :: insertFavDesc x ys

def sortFavDesc : List VideoRow → List VideoRow
  | [] => []
  | x :: xs => insertFavDesc x (sortFavDesc xs)

/- list_favorites (db.rs lines 303-338): rows whose favoriteDate is
non-NULL and non-blank, most recently favorited first; title falls back to
the id when blank (COALESCE then the trim check); added_at_epoch parses
the stored favoriteDate, defaulting to the current instant. -/
def list_favorites (env : DbEnv) (now : Int) (s : DBState) : List FavoriteItem :=
  let rows := s.video_details.filter (fun row => !(blankOrNull row.favoriteDate))
  (sortFavDesc rows).map (fun row =>
    let title := row.title.getD ""
    { video_id := row.id,
      title := if str_trim title = "" then row.id else title,
      image_url := row.thumb,
      network := row.network,
      added_at_epoch :=
        (parse_timestamp_to_epoch_seconds env.tp (row.favoriteDate.getD "")).getD now })

/- ## Statement helpers for the migration claims.

A phase step is a no-op on a table that is already `ready` for its legacy
row: the rows carrying the step's key already hold exactly the values the
step writes.  These predicates name that state. -/

def metaReady (t : List (String × Option String)) (r : LegacyMetaRow) : Prop :=
  t.filter (fun kv => kv.1 = r.key) ≠ []
  ∧ ∀ kv ∈ t.filter (fun kv => kv.1 = r.key), kv = (r.key, some r.value)

def vcReady (env : DbEnv) (now : Int) (t : List VideoRow) (r : LegacyCacheRow) : Prop :=
  t.filter (fun row => row.id = r.video_id) ≠ []
  ∧ ∀ row ∈ t.filter (fun row => row.id = r.video_id),
      vcMerge row (vc_new_row env now r) = row

def favReady (env : DbEnv) (now : Int) (t : List VideoRow) (r : LegacyFavRow) : Prop :=
  t.filter (fun row => row.id = r.video_id) ≠ []
  ∧ ∀ row ∈ t.filter (fun row => row.id = r.video_id),
      favMerge row (fav_new_row env now [] r) = row

def rcReady (env : DbEnv) (now : Int) (t : List VideoRow) (r : LegacyResolvedRow) : Prop :=
  t.filter (fun row => row.url = r.page_url) ≠ []
  ∧ ∀ row ∈ t.filter (fun row => row.url = r.page_url),
      rcUpdateRow r.payload_json (epoch_seconds_to_iso env now r.updated_at)
        (rc_row_title env r) row = row

/- The resolved-cache migration's per-row precondition: the legacy row
either matches an existing row by url (pure update-in-place) or is wholly
fresh (no url match and no id collision for its derived id). -/
def rcHyp (env : DbEnv) (t : List VideoRow) (r : LegacyResolvedRow) : Prop :=
  (∃ row ∈ t, row.url = r.page_url)
  ∨ ((∀ row ∈ t, row.url ≠ r.page_url) ∧ (∀ row ∈ t, row.id ≠ rc_row_id env r))

/- ## Statement helpers and concrete fixtures for closed instances -/

/- The rows of a table carrying a given primary key. -/
def rowsId (table : List VideoRow) (q : String) : List VideoRow :=
  table.filter (fun r => r.id = q)

/- The rows of a table carrying a given url. -/
def rowsUrl (table : List VideoRow) (q : String) : List VideoRow :=
  table.filter (fun r => r.url = q)

/- A concrete instantiation of the abstracted chrono parsers: epoch t is
formatted as "@t", which the rfc3339 parser inverts; the legacy formats
parse nothing. -/
def tpW : TimeParsers :=
  { rfc3339 := fun s =>
      match s.data with
      | '@' :: rest => parseI64 (String.mk rest)
      | _ => none,
    fmtFracT := fun _ => none,
    fmtFracSpace := fun _ => none,
    fmtPlainT := fun _ => none }

def rvX : ResolvedVideo :=
  { id := "vid-1", title := "A Title", page_url := "https://example.com/v/1",
    stream_url := "https://cdn.example.com/1.m3u8", thumbnail_url := none,
    author_name := none, extractor := none, duration_seconds := some 120 }

def viX : VideoItem :=
  { id := "video-1", title := "Sample", page_url := "https://example.com/v/1",
    duration_seconds := some 120, image_url := some "https://example.com/1.jpg",
    network := some "catflix", author_name := some "author", extractor := none,
    view_count := some 42 }

/- A concrete instantiation of the store's external collaborators. -/
def envW : DbEnv :=
  { decodeVideoItem := fun s => if s = "VI" then some viX else none,
    encodeVideoItem := fun _ => "VI",
    decodeResolved := fun s => if s = "RP" then some rvX else none,
    encodeResolved := fun _ => "RP",
    isoOfEpoch := fun t => "@" ++ toString t,
    isoValid := fun _ => true,
    tp := tpW }

/- The channel of the repository's own test fixture
selects_default_channel_and_latest_sort (api.rs lines 459-492): a sort
option whose choices are views then latest. -/
def chLatest : ApiStatusChannel :=
  { id := "catflix", name := none, status := none, isDefault := true,
    options := [
      { id := "sort", title := none, multi_select := false,
        options := [
          { id := "views", title := none },
          { id := "latest", title := none }] }] }

/- A store holding one row of each legacy generation. -/
def sLegacy : DBState :=
  { user_preferences := [],
    video_details := [],
    legacy_meta := some [{ key := "settings.theme", value := "dark" }],
    legacy_video_cache := some [{ video_id := "video-1", payload_json := "VI", updated_at := 5 }],
    legacy_favorites := some [{ video_id := "fav-1", title := "Fav", image_url := none, network := none, added_at := 6 }],
    legacy_resolved := some [{ page_url := "https://example.com/v/9", payload_json := "RP", updated_at := 7 }] }

/- A store with no legacy tables and one unified row. -/
def rowPlain : VideoRow :=
  { id := "video-1", url := "https://example.com/v/1", title := some "Sample",
    thumb := none, dateAdded := none, views := none, duration := none,
    uploader := none, network := none, lastUpdated := none,
    favoriteDate := none, allFormats := some "RP", rawData := none,
    cacheDate := some "@3" }

def sPlain : DBState :=
  { user_preferences := [], video_details := [rowPlain],
    legacy_meta := none, legacy_video_cache := none,
    legacy_favorites := none, legacy_resolved := none }

/- ## General list lemmas used by the claim proofs -/

theorem listMapSelf {α : Type} (f : α → α) :
    ∀ l : List α, (∀ a ∈ l, f a = a) → l.map f = l
  | [], _ => rfl
  | x :: xs, h => by
    simp only [List.map_cons]
    rw [h x (by simp), listMapSelf f xs (fun a ha => h a (by simp [ha]))]

theorem listFoldlFix {α β : Type} (f : β → α → β) (t : β) :
    ∀ l : List α, (∀ a ∈ l, f t a = t) → l.foldl f t = t
  | [], _ => rfl
  | x :: xs, h => by
    simp only [List.foldl_cons]
    rw [h x (by simp), listFoldlFix f t xs (fun a ha => h a (by simp [ha]))]

/- ## Claim C3 (code_bug evidence): the api.rs call site at the failing
input.  fetch_text with a configured secondary script, primary status 403:
the decision invokes the secondary with exactly the primary's method, url
and JSON body.  curl_cffi.rs's fetch_with_curl_cffi, the function being
invoked, accepts no method or body at all (fetch_with_curl_cffi_argv): the
five-argument call cannot type-check against the four-parameter
definition, so the crate as checked in does not compile. -/

/-- Claim C3: when the fetch bridge falls back to the secondary fetch
mechanism on status 403, the api.rs call site hands over the identical
method, url and JSON body of the primary attempt; evaluated here at the
failing input.  The secondary itself (curl_cffi.rs lines 6-40) has no
method or body parameter, so the crate's two halves contradict each
other. -/
theorem C3_fallback_identical_args_at_call_site :
    fetch_text_decision (some "curl_bridge.py") "POST"
      "https://getfigleaf.com/api/videos" (some "payload")
      (PrimaryOutcome.response 403 "blocked")
      = FetchOutcome.secondary "POST" "https://getfigleaf.com/api/videos"
          (some "payload") := by
  decide

/-- Claim C4: for a primary response, the fallback to the secondary fetch
mechanism happens exactly when the status is 403, 429 or 503 and a
secondary script is configured; any other non-2xx status, or one of those
three with no secondary configured, is the terminal error carrying the
status and the response body. -/
theorem C4_status_fallback_exactly_403_429_503 (script : Option String)
    (method url : String) (json_body : Option String) (status : Nat) (body : String) :
    (fetch_text_decision script method url json_body
        (PrimaryOutcome.response status body)
        = FetchOutcome.secondary method url json_body
      ↔ (status = 403 ∨ status = 429 ∨ status = 503) ∧ script.isSome = true)
    ∧ (status_is_success status = false →
        ((status = 403 ∨ status = 429 ∨ status = 503) → script = none) →
        fetch_text_decision script method url json_body
          (PrimaryOutcome.response status body)
          = FetchOutcome.err status url body) := by
  have hshould : should_try_curl_cffi status = true
      ↔ (status = 403 ∨ status = 429 ∨ status = 503) := by
    simp [should_try_curl_cffi, Nat.beq_eq, or_assoc]
  have hmain : fetch_text_decision script method url json_body
      (PrimaryOutcome.response status body)
      = (if status_is_success status = true then FetchOutcome.ok body
         else if should_try_curl_cffi status = true ∧ script.isSome = true then
           FetchOutcome.secondary method url json_body
         else FetchOutcome.err status url body) := by
    by_cases hs : status_is_success status = true
    · simp [fetch_text_decision, hs]
    · by_cases h1 : should_try_curl_cffi status = true
      · by_cases h2 : script.isSome = true
        · simp [fetch_text_decision, hs, h1, h2]
        · simp [fetch_text_decision, hs, h1, h2]
      · simp [fetch_text_decision, hs, h1]
  rw [hmain]
  constructor
  · by_cases hs : status_is_success status = true
    · have hnot : ¬ (status = 403 ∨ status = 429 ∨ status = 503) := by
        intro h
        rcases h with h | h | h <;> subst h <;> revert hs <;> decide
      simp [hs, hnot]
    · by_cases h12 : should_try_curl_cffi status = true ∧ script.isSome = true
      · rw [if_neg hs, if_pos h12]
        constructor
        · intro _
          exact ⟨hshould.mp h12.1, h12.2⟩
        · intro _
          rfl
      · have hnot : ¬ ((status = 403 ∨ status = 429 ∨ status = 503)
            ∧ script.isSome = true) := by
          intro h
          exact h12 ⟨hshould.mpr h.1, h.2⟩
        simp [hs, h12, hnot]
  · intro hfail hnone
    have hs : ¬ status_is_success status = true := by simp [hfail]
    have h12 : ¬ (should_try_curl_cffi status = true ∧ script.isSome = true) := by
      rintro ⟨h1, h2⟩
      rw [hnone (hshould.mp h1)] at h2
      exact Bool.false_ne_true h2
    simp [hs, h12]

/-- Claim C4, witness: the theorem applied at status 429 with a configured
secondary, and at status 500 with none. -/
theorem C4_status_fallback_witness :
    fetch_text_decision (some "curl_bridge.py") "POST" "https://x.example/api"
        none (PrimaryOutcome.response 429 "throttled")
      = FetchOutcome.secondary "POST" "https://x.example/api" none
    ∧ fetch_text_decision none "POST" "https://x.example/api" none
        (PrimaryOutcome.response 500 "boom")
      = FetchOutcome.err 500 "https://x.example/api" "boom" :=
  ⟨(C4_status_fallback_exactly_403_429_503 (some "curl_bridge.py") "POST"
      "https://x.example/api" none 429 "throttled").1.mpr
      ⟨Or.inr (Or.inl rfl), rfl⟩,
   (C4_status_fallback_exactly_403_429_503 none "POST" "https://x.example/api"
      none 500 "boom").2 (by decide) (fun _ => rfl)⟩

/-- Claim C9: the normalized id is the first non-empty value among the
explicit id, the hashedUrl content hash and the page url; the title
defaults to Untitled when absent; the network defaults to the resolved
channel id when absent; a record whose id, hash and url are all blank
still yields a well-formed item with an empty id. -/
theorem C9_record_normalization (r1 r2 r3 r4 : ApiVideoRecord) (ch : String)
    (h2 : r2.title = none)
    (h3 : r3.network = none)
    (h4a : r4.id = none ∨ r4.id = some "")
    (h4b : r4.hashed_url = none ∨ r4.hashed_url = some "")
    (h4c : r4.url = none ∨ r4.url = some "") :
    (map_video_record r1 ch).id =
      (if r1.id.getD "" ≠ "" then r1.id.getD ""
       else if r1.hashed_url.getD "" ≠ "" then r1.hashed_url.getD ""
       else r1.url.getD "")
    ∧ (map_video_record r2 ch).title = "Untitled"
    ∧ (map_video_record r3 ch).network = some ch
    ∧ (map_video_record r4 ch).id = "" := by
  refine ⟨?_, ?_, ?_, ?_⟩
  · rcases r1 with ⟨rid, rhash, rtitle, rurl, rdur, rimg, rnet, rauthor, rext, rviews⟩
    simp only [map_video_record]
    rcases rid with _ | i
    · rcases rhash with _ | h
      · simp [Option.filter, Option.or, Option.getD]
      · by_cases hh : h = ""
        · subst hh
          simp [Option.filter, Option.or, Option.getD]
        · simp [Option.filter, Option.or, Option.getD, hh]
    · by_cases hi : i = ""
      · subst hi
        rcases rhash with _ | h
        · simp [Option.filter, Option.or, Option.getD]
        · by_cases hh : h = ""
          · subst hh
            simp [Option.filter, Option.or, Option.getD]
          · simp [Option.filter, Option.or, Option.getD, hh]
      · simp [Option.filter, Option.or, Option.getD, hi]
  · simp [map_video_record, h2]
  · simp [map_video_record, h3, Option.or]
  · rcases h4a with h | h <;> rcases h4b with h' | h' <;> rcases h4c with h'' | h'' <;>
      simp [map_video_record, h, h', h'', Option.filter, Option.or, Option.getD]

/-- Claim C9, witness: the theorem applied to the all-blank record and to a
record carrying only a hash. -/
theorem C9_record_normalization_witness :
    (map_video_record
        { id := none, hashed_url := some "abc123", title := none, url := none,
          duration := none, image := none, network := none, author_name := none,
          extractor := none, view_count := none } "catflix").id =
      (if (some "abc123" : Option String).getD "" ≠ "" then "abc123" else "")
    ∧ (map_video_record
        { id := none, hashed_url := none, title := none, url := none,
          duration := none, image := none, network := none, author_name := none,
          extractor := none, view_count := none } "catflix").title = "Untitled"
    ∧ (map_video_record
        { id := none, hashed_url := none, title := none, url := none,
          duration := none, image := none, network := none, author_name := none,
          extractor := none, view_count := none } "catflix").network = some "catflix"
    ∧ (map_video_record
        { id := none, hashed_url := none, title := none, url := none,
          duration := none, image := none, network := none, author_name := none,
          extractor := none, view_count := none } "catflix").id = "" := by
  have h := C9_record_normalization
    { id := none, hashed_url := some "abc123", title := none, url := none,
      duration := none, image := none, network := none, author_name := none,
      extractor := none, view_count := none }
    { id := none, hashed_url := none, title := none, url := none,
      duration := none, image := none, network := none, author_name := none,
      extractor := none, view_count := none }
    { id := none, hashed_url := none, title := none, url := none,
      duration := none, image := none, network := none, author_name := none,
      extractor := none, view_count := none }
    { id := none, hashed_url := none, title := none, url := none,
      duration := none, image := none, network := none, author_name := none,
      extractor := none, view_count := none }
    "catflix" rfl rfl (Or.inl rfl) (Or.inl rfl) (Or.inl rfl)
  refine ⟨?_, h.2.1, h.2.2.1, h.2.2.2⟩
  have h1 := h.1
  simpa using h1

/- select_channel returns none exactly on an absent or empty channel
list. -/
theorem select_channel_none_iff (s : ApiStatusResponse)
    (l : List ApiStatusChannel) (h : s.channels = some l) :
    (select_channel s = none ↔ l = []) := by
  cases l with
  | nil => simp [select_channel, h]
  | cons c cs =>
    simp only [select_channel, h]
    constructor
    · intro hnone
      cases h1 : (c :: cs).find? (fun c => c.isDefault) with
      | some x => rw [h1] at hnone; simp [Option.or] at hnone
      | none =>
        cases h2 : (c :: cs).find? (fun c => c.status = some "active") with
        | some x => rw [h1, h2] at hnone; simp [Option.or] at hnone
        | none => rw [h1, h2] at hnone; simp [Option.or] at hnone
    · intro hcontra
      exact absurd hcontra (by simp)

/-- Claim C5: channel selection is deterministic with total preference
order - the channel flagged default, else the first channel with status
active, else the first channel - and discovery fails with NotFound exactly
when the channel list is absent or empty. -/
theorem C5_channel_selection_total_order
    (sa : ApiStatusResponse) (la : List ApiStatusChannel) (ca : ApiStatusChannel)
    (ha1 : sa.channels = some la)
    (ha2 : la.find? (fun c => c.isDefault) = some ca)
    (sb : ApiStatusResponse) (lb : List ApiStatusChannel) (cb : ApiStatusChannel)
    (hb1 : sb.channels = some lb)
    (hb2 : ∀ x ∈ lb, x.isDefault = false)
    (hb3 : lb.find? (fun c => c.status = some "active") = some cb)
    (sc : ApiStatusResponse) (lc : List ApiStatusChannel)
    (hc1 : sc.channels = some lc)
    (hc2 : ∀ x ∈ lc, x.isDefault = false)
    (hc3 : ∀ x ∈ lc, x.status ≠ some "active")
    (sd : ApiStatusResponse) (cid : Option String) :
    select_channel sa = some ca
    ∧ select_channel sb = some cb
    ∧ select_channel sc = lc.head?
    ∧ (select_channel_with_id_or_default sd cid = none
        ↔ (sd.channels = none ∨ sd.channels = some []))
    ∧ (discover_resolve_channel sd cid
        = Except.error (EngineError.notFound "no active channel returned by /api/status")
        ↔ (sd.channels = none ∨ sd.channels = some [])) := by
  have hb2' : lb.find? (fun c => c.isDefault) = none :=
    List.find?_eq_none.mpr (fun x hx => by simp [hb2 x hx])
  have hc2' : lc.find? (fun c => c.isDefault) = none :=
    List.find?_eq_none.mpr (fun x hx => by simp [hc2 x hx])
  have hc3' : lc.find? (fun c => c.status = some "active") = none :=
    List.find?_eq_none.mpr (fun x hx => by simp [hc3 x hx])
  have hd : select_channel_with_id_or_default sd cid = none
      ↔ (sd.channels = none ∨ sd.channels = some []) := by
    cases hch : sd.channels with
    | none => simp [select_channel_with_id_or_default, hch]
    | some l =>
      cases l with
      | nil =>
        simp only [select_channel_with_id_or_default, hch]
        have hsel : select_channel sd = none :=
          (select_channel_none_iff sd [] hch).mpr rfl
        constructor
        · intro _
          simp
        · intro _
          split
          · rename_i cid' hcid'
            split
            · rename_i c hc
              simp at hc
            · exact hsel
          · exact hsel
      | cons c cs =>
        have hsel : select_channel sd ≠ none := by
          intro hcontra
          exact absurd ((select_channel_none_iff sd (c :: cs) hch).mp hcontra) (by simp)
        simp only [select_channel_with_id_or_default, hch]
        constructor
        · intro hnone
          exfalso
          revert hnone
          split
          · rename_i cid' hcid'
            split
            · rename_i cx hcx
              simp
            · intro hnone
              exact hsel hnone
          · intro hnone
            exact hsel hnone
        · rintro (hcontra | hcontra) <;> simp [hch] at hcontra
  refine ⟨?_, ?_, ?_, hd, ?_⟩
  · simp [select_channel, ha1, ha2, Option.or]
  · simp [select_channel, hb1, hb2', hb3, Option.or]
  · simp [select_channel, hc1, hc2', hc3', Option.or]
  · unfold discover_resolve_channel
    cases hsel : select_channel_with_id_or_default sd cid with
    | some c =>
      simp only []
      constructor
      · intro hcontra
        exact absurd hcontra (by simp)
      · intro h
        exact absurd (hd.mpr h) (by simp [hsel])
    | none =>
      simp only []
      constructor
      · intro _
        exact hd.mp hsel
      · intro _
        trivial

/-- Claim C5, witness: the theorem applied to three concrete channel
lists (a defaulted channel in last position, an active channel behind an
inactive one, neither flag anywhere) and to the empty status response. -/
theorem C5_channel_selection_witness :
    select_channel { channels := some [
        { id := "a", name := none, status := some "down", isDefault := false, options := [] },
        { id := "b", name := none, status := none, isDefault := true, options := [] }] }
      = some { id := "b", name := none, status := none, isDefault := true, options := [] }
    ∧ select_channel { channels := some [
        { id := "a", name := none, status := some "down", isDefault := false, options := [] },
        { id := "b", name := none, status := some "active", isDefault := false, options := [] }] }
      = some { id := "b", name := none, status := some "active", isDefault := false, options := [] }
    ∧ select_channel { channels := some [
        { id := "a", name := none, status := some "down", isDefault := false, options := [] },
        { id := "b", name := none, status := none, isDefault := false, options := [] }] }
      = ([
        { id := "a", name := none, status := some "down", isDefault := false, options := [] },
        { id := "b", name := none, status := none, isDefault := false, options := [] }] :
          List ApiStatusChannel).head?
    ∧ (select_channel_with_id_or_default { channels := some [] } none = none
        ↔ (({ channels := some [] } : ApiStatusResponse).channels = none
            ∨ ({ channels := some [] } : ApiStatusResponse).channels = some []))
    ∧ (discover_resolve_channel { channels := some [] } none
        = Except.error (EngineError.notFound "no active channel returned by /api/status")
        ↔ (({ channels := some [] } : ApiStatusResponse).channels = none
            ∨ ({ channels := some [] } : ApiStatusResponse).channels = some [])) :=
  C5_channel_selection_total_order
    { channels := some [
        { id := "a", name := none, status := some "down", isDefault := false, options := [] },
        { id := "b", name := none, status := none, isDefault := true, options := [] }] }
    [ { id := "a", name := none, status := some "down", isDefault := false, options := [] },
      { id := "b", name := none, status := none, isDefault := true, options := [] }]
    { id := "b", name := none, status := none, isDefault := true, options := [] }
    rfl (by decide)
    { channels := some [
        { id := "a", name := none, status := some "down", isDefault := false, options := [] },
        { id := "b", name := none, status := some "active", isDefault := false, options := [] }] }
    [ { id := "a", name := none, status := some "down", isDefault := false, options := [] },
      { id := "b", name := none, status := some "active", isDefault := false, options := [] }]
    { id := "b", name := none, status := some "active", isDefault := false, options := [] }
    rfl (by decide) (by decide)
    { channels := some [
        { id := "a", name := none, status := some "down", isDefault := false, options := [] },
        { id := "b", name := none, status := none, isDefault := false, options := [] }] }
    [ { id := "a", name := none, status := some "down", isDefault := false, options := [] },
      { id := "b", name := none, status := none, isDefault := false, options := [] }]
    rfl (by decide) (by decide)
    { channels := some [] } none

/- ## Payload lemmas for claim C1 -/

theorem payload_get_cons (a : String × String) (rest : List (String × String))
    (k : String) :
    payload_get (a :: rest) k = if a.1 = k then some a.2 else payload_get rest k := by
  by_cases h : a.1 = k
  · simp [payload_get, List.find?_cons, h]
  · simp [payload_get, List.find?_cons, h]

theorem payload_get_insert_self (acc : List (String × String)) (k v : String) :
    payload_get (payload_insert acc k v) k = some v := by
  unfold payload_insert
  by_cases h : acc.any (fun kv => kv.1 = k) = true
  · rw [if_pos h]
    induction acc with
    | nil => simp at h
    | cons x xs ih =>
      rw [List.map_cons, payload_get_cons]
      by_cases hx : x.1 = k
      · rw [if_pos hx]
        simp
      · rw [if_neg hx]
        simp only [if_neg hx]
        apply ih
        simp only [List.any_cons, Bool.or_eq_true, decide_eq_true_eq] at h
        rcases h with h | h
        · exact absurd h hx
        · simpa using h
  · rw [if_neg h]
    induction acc with
    | nil => simp [payload_get_cons]
    | cons x xs ih =>
      rw [List.cons_append, payload_get_cons]
      have hx : x.1 ≠ k := by
        intro hc
        exact h (by simp [List.any_cons, hc])
      rw [if_neg hx]
      apply ih
      intro hc
      apply h
      simp only [List.any_cons, Bool.or_eq_true]
      exact Or.inr hc

theorem payload_get_insert_ne (acc : List (String × String)) (k' v k : String)
    (hne : k' ≠ k) :
    payload_get (payload_insert acc k' v) k = payload_get acc k := by
  unfold payload_insert
  by_cases h : acc.any (fun kv => kv.1 = k') = true
  · rw [if_pos h]
    clear h
    induction acc with
    | nil => rfl
    | cons x xs ih =>
      rw [List.map_cons, payload_get_cons, payload_get_cons]
      by_cases hx : x.1 = k'
      · rw [if_pos hx]
        simp only []
        rw [if_neg hne, hx, if_neg hne]
        exact ih
      · rw [if_neg hx]
        by_cases hxk : x.1 = k
        · rw [if_pos hxk, if_pos hxk]
        · rw [if_neg hxk, if_neg hxk]
          exact ih
  · rw [if_neg h]
    induction acc with
    | nil => simp [payload_get, payload_get_cons, hne]
    | cons x xs ih =>
      rw [List.cons_append, payload_get_cons, payload_get_cons]
      by_cases hxk : x.1 = k
      · rw [if_pos hxk, if_pos hxk]
      · rw [if_neg hxk, if_neg hxk]
        apply ih
        intro hc
        apply h
        simp only [List.any_cons, Bool.or_eq_true]
        exact Or.inr hc

theorem filter_singleton_split {α : Type} (p : α → Bool) :
    ∀ (l : List α) (a : α), l.filter p = [a] →
      ∃ l1 l2, l = l1 ++ a :: l2 ∧ (∀ x ∈ l1, p x = false)
        ∧ (∀ x ∈ l2, p x = false) ∧ p a = true
  | [], a, h => by simp at h
  | x :: xs, a, h => by
    by_cases hx : p x = true
    · rw [List.filter_cons_of_pos hx] at h
      injection h with h1 h2
      subst h1
      refine ⟨[], xs, rfl, by simp, ?_, hx⟩
      intro y hy
      have hy' := List.filter_eq_nil_iff.mp h2 y hy
      simpa using hy'
    · rw [List.filter_cons_of_neg (by simpa using hx)] at h
      obtain ⟨l1, l2, heq, h1, h2, hpa⟩ := filter_singleton_split p xs a h
      refine ⟨x :: l1, l2, by rw [heq, List.cons_append], ?_, h2, hpa⟩
      intro y hy
      rcases List.mem_cons.mp hy with rfl | hy'
      · simpa using hx
      · exact h1 y hy'

/- A fold of option steps whose option ids all differ from a key leaves
that key's payload entry unchanged. -/
theorem build_fold_preserves (expl : List (String × String)) (key : String) :
    ∀ (opts : List ApiStatusChannelOption) (acc : List (String × String)),
      (∀ o ∈ opts, o.id ≠ key) →
      payload_get (opts.foldl (build_option_step expl) acc) key = payload_get acc key
  | [], acc, _ => rfl
  | o :: os, acc, h => by
    rw [List.foldl_cons]
    rw [build_fold_preserves expl key os _ (fun x hx => h x (by simp [hx]))]
    unfold build_option_step
    by_cases hskip : str_trim o.id = "" ∨ o.options.isEmpty
    · rw [if_pos hskip]
    · rw [if_neg hskip]
      cases hsel : option_selected_id expl o with
      | some sid =>
        simp only []
        exact payload_get_insert_ne acc o.id sid key (h o (by simp))
      | none => simp only []

/-- Claim C1, counterexample: the repository's own fixture channel (a sort
option listing views before latest, no explicit selections) produces a
payload whose sort value is the first listed choice "views", not "latest";
both the code and its tests pin this behavior
(selects_default_channel_and_latest_sort asserts "views"). -/
theorem C1_counterexample_latest_not_preferred :
    payload_get (build_videos_payload chLatest "" 1 10 []) "sort" = some "views"
    ∧ payload_get (build_videos_payload chLatest "" 1 10 []) "sort" ≠ some "latest" := by
  decide

/-- Claim C1 as amended: when the caller supplies no valid explicit
selection for the sort option, the discovery payload carries the first
listed choice of that option - whether or not a choice with id "latest" is
present; no preference for "latest" exists in the code. -/
theorem C1_sort_default_is_first_choice (channel : ApiStatusChannel)
    (query : String) (page limit : Nat) (selections : List FilterSelection)
    (opt : ApiStatusChannelOption) (c0 : ApiStatusChoice)
    (hopt : channel.options.filter (fun o => o.id = "sort") = [opt])
    (hhead : opt.options.head? = some c0)
    (hsel : ∀ cand, payload_get (explicit_selections selections) "sort" = some cand →
      opt.options.find? (fun c => c.id = cand) = none) :
    payload_get (build_videos_payload channel query page limit selections) "sort"
      = some c0.id := by
  obtain ⟨l1, l2, heq, h1, h2, hpa⟩ :=
    filter_singleton_split _ channel.options opt hopt
  have hid : opt.id = "sort" := by simpa using hpa
  have h1' : ∀ o ∈ l1, o.id ≠ "sort" := fun o ho => by simpa using h1 o ho
  have h2' : ∀ o ∈ l2, o.id ≠ "sort" := fun o ho => by simpa using h2 o ho
  unfold build_videos_payload
  simp only []
  rw [heq, List.foldl_append, List.foldl_cons]
  rw [build_fold_preserves _ "sort" l2 _ h2']
  unfold build_option_step
  have hne : ¬ (str_trim opt.id = "" ∨ opt.options.isEmpty) := by
    intro hsk
    rcases hsk with hsk | hsk
    · rw [hid] at hsk
      exact absurd hsk (by decide)
    · cases hop : opt.options with
      | nil => rw [hop] at hhead; simp at hhead
      | cons a rest => rw [hop] at hsk; simp at hsk
  rw [if_neg hne]
  have hselid : option_selected_id (explicit_selections selections) opt = some c0.id := by
    unfold option_selected_id
    rw [hid]
    cases hc : payload_get (explicit_selections selections) "sort" with
    | none =>
      simp only []
      rw [hhead]
      rfl
    | some cand =>
      simp only []
      rw [hsel cand hc]
      rw [hhead]
      rfl
  rw [hselid]
  simp only []
  rw [hid]
  exact payload_get_insert_self _ "sort" c0.id

/-- Claim C1, witness: the amended theorem applied to the fixture channel
with no selections yields the first choice "views". -/
theorem C1_sort_first_choice_witness :
    payload_get (build_videos_payload chLatest "" 1 10 []) "sort"
      = some ({ id := "views", title := none } : ApiStatusChoice).id :=
  C1_sort_default_is_first_choice chLatest "" 1 10 []
    { id := "sort", title := none, multi_select := false,
      options := [{ id := "views", title := none }, { id := "latest", title := none }] }
    { id := "views", title := none } (by decide) rfl
    (fun cand hc => by simp [explicit_selections, payload_get] at hc)

/- ## Envelope lemmas for claims C8 and C10 -/

/- An envelope object none of whose keys is "videos" or "items" decodes to
the accumulated (defaulted) fields. -/
theorem envelopeFields_skip :
    ∀ (fields : List (String × JsonVal)) (vs its : Option (List ApiVideoRecord)),
      (∀ kv ∈ fields, kv.1 ≠ "videos" ∧ kv.1 ≠ "items") →
      envelopeFields fields vs its = some { videos := vs.getD [], items := its.getD [] }
  | [], _, _, _ => rfl
  | (k, v) :: rest, vs, its, h => by
    have hk := h (k, v) (by simp)
    unfold envelopeFields
    rw [if_neg hk.1, if_neg hk.2]
    exact envelopeFields_skip rest vs its (fun kv hkv => h kv (by simp [hkv]))

/-- Claim C8: the three accepted response shapes - a videos envelope, an
items envelope and a bare array - produce identical normalized video lists
for the same record contents. -/
theorem C8_three_shapes_identical (js : List JsonVal) (rs : List ApiVideoRecord)
    (ch : String) (hdec : decodeRecordList (JsonVal.arr js) = some rs) :
    parse_videos (JsonVal.obj [("videos", JsonVal.arr js)]) ch
      = Except.ok (rs.map (fun r => map_video_record r ch))
    ∧ parse_videos (JsonVal.obj [("items", JsonVal.arr js)]) ch
      = Except.ok (rs.map (fun r => map_video_record r ch))
    ∧ parse_videos (JsonVal.arr js) ch
      = Except.ok (rs.map (fun r => map_video_record r ch)) := by
  have hvid : decodeApiVideoEnvelope (JsonVal.obj [("videos", JsonVal.arr js)])
      = some { videos := rs, items := [] } := by
    show envelopeFields [("videos", JsonVal.arr js)] none none = _
    unfold envelopeFields
    rw [if_pos rfl]
    simp only [hdec, Option.bind_some]
    rfl
  have hits : decodeApiVideoEnvelope (JsonVal.obj [("items", JsonVal.arr js)])
      = some { videos := [], items := rs } := by
    show envelopeFields [("items", JsonVal.arr js)] none none = _
    unfold envelopeFields
    rw [if_neg (by decide), if_pos rfl]
    simp only [hdec, Option.bind_some]
    rfl
  refine ⟨?_, ?_, ?_⟩
  · unfold parse_videos
    rw [hvid]
    cases rs with
    | nil => simp
    | cons r rest => simp
  · unfold parse_videos
    rw [hits]
    simp
  · cases js with
    | nil =>
      have hrs : rs = [] := by
        have : decodeRecords ([] : List JsonVal) = some rs := hdec
        simpa [decodeRecords] using this.symm
      subst hrs
      unfold parse_videos
      rfl
    | cons a rest =>
      have hobj : ∃ af, a = JsonVal.obj af := by
        have hda : (decodeApiVideoRecord a).isSome := by
          have : decodeRecords (a :: rest) = some rs := hdec
          unfold decodeRecords at this
          cases hra : decodeApiVideoRecord a with
          | none => rw [hra] at this; simp at this
          | some r0 => simp
        cases a with
        | obj af => exact ⟨af, rfl⟩
        | arr es => simp [decodeApiVideoRecord] at hda
        | str s => simp [decodeApiVideoRecord] at hda
        | num n => simp [decodeApiVideoRecord] at hda
        | jbool b => simp [decodeApiVideoRecord] at hda
        | null => simp [decodeApiVideoRecord] at hda
      obtain ⟨af, rfl⟩ := hobj
      have hlista : decodeRecordList (JsonVal.obj af) = none := rfl
      have henv : decodeApiVideoEnvelope (JsonVal.arr (JsonVal.obj af :: rest)) = none := by
        cases rest with
        | nil => simp [decodeApiVideoEnvelope, hlista]
        | cons b rest2 =>
          cases rest2 with
          | nil => simp [decodeApiVideoEnvelope, hlista]
          | cons c rest3 => rfl
      unfold parse_videos
      rw [henv, hdec]

/-- Claim C8, witness: a one-record list in all three shapes. -/
theorem C8_three_shapes_witness :
    parse_videos (JsonVal.obj [("videos", JsonVal.arr [JsonVal.obj [("id", JsonVal.str "a")]])]) "catflix"
      = Except.ok ([{
          id := some "a", hashed_url := none, title := none, url := none,
          duration := none, image := none, network := none, author_name := none,
          extractor := none, view_count := none }].map (fun r => map_video_record r "catflix"))
    ∧ parse_videos (JsonVal.obj [("items", JsonVal.arr [JsonVal.obj [("id", JsonVal.str "a")]])]) "catflix"
      = Except.ok ([{
          id := some "a", hashed_url := none, title := none, url := none,
          duration := none, image := none, network := none, author_name := none,
          extractor := none, view_count := none }].map (fun r => map_video_record r "catflix"))
    ∧ parse_videos (JsonVal.arr [JsonVal.obj [("id", JsonVal.str "a")]]) "catflix"
      = Except.ok ([{
          id := some "a", hashed_url := none, title := none, url := none,
          duration := none, image := none, network := none, author_name := none,
          extractor := none, view_count := none }].map (fun r => map_video_record r "catflix")) :=
  C8_three_shapes_identical [JsonVal.obj [("id", JsonVal.str "a")]]
    [{
       id := some "a", hashed_url := none, title := none, url := none,
       duration := none, image := none, network := none, author_name := none,
       extractor := none, view_count := none }] "catflix" rfl

/-- Claim C10, counterexample: a syntactically valid JSON object whose
"videos" key holds a number fails both decodes and is the Serialization
error, refuting "for every valid JSON object, video-list parsing
succeeds". -/
theorem C10_counterexample_object_parse_fails :
    parse_videos (JsonVal.obj [("videos", JsonVal.num 5)]) "catflix"
      = Except.error (EngineError.serialization "unexpected videos payload shape") := by
  rfl

/-- Claim C10 as amended: parsing succeeds for every JSON object whose
"videos"/"items" keys, where present, hold decodable arrays of video
records - in particular both keys default to empty when absent, so an
object containing neither key yields the empty video list - and the
Serialization error is returned exactly when the body decodes neither as
such an envelope nor as a bare array of records. -/
theorem C10_envelope_defaults (fields : List (String × JsonVal)) (ch : String)
    (body : JsonVal) (env' : ApiVideoEnvelope) (body2 : JsonVal)
    (hclean : ∀ kv ∈ fields, kv.1 ≠ "videos" ∧ kv.1 ≠ "items")
    (henv : decodeApiVideoEnvelope body = some env')
    (henv2 : decodeApiVideoEnvelope body2 = none)
    (hlist : decodeRecordList body2 = none) :
    parse_videos (JsonVal.obj fields) ch = Except.ok []
    ∧ parse_videos body ch
      = Except.ok ((if env'.videos.isEmpty then env'.items else env'.videos).map
          (fun r => map_video_record r ch))
    ∧ parse_videos body2 ch
      = Except.error (EngineError.serialization "unexpected videos payload shape") := by
  refine ⟨?_, ?_, ?_⟩
  · have h := envelopeFields_skip fields none none hclean
    unfold parse_videos
    show (match envelopeFields fields none none with
      | some envelope => Except.ok ((if envelope.videos.isEmpty then envelope.items
          else envelope.videos).map (fun r => map_video_record r ch))
      | none =>
        match decodeRecordList (JsonVal.obj fields) with
        | some videos => Except.ok (videos.map (fun r => map_video_record r ch))
        | none => Except.error (EngineError.serialization "unexpected videos payload shape"))
      = Except.ok []
    rw [h]
    rfl
  · unfold parse_videos
    rw [henv]
  · unfold parse_videos
    rw [henv2, hlist]

/-- Claim C10, witness: an object with an unrelated key parses to the
empty list; an empty object parses through the envelope; a bare string is
the Serialization error. -/
theorem C10_envelope_defaults_witness :
    parse_videos (JsonVal.obj [("foo", JsonVal.num 1)]) "catflix" = Except.ok []
    ∧ parse_videos (JsonVal.obj []) "catflix"
      = Except.ok ((if (List.nil : List ApiVideoRecord).isEmpty then
          ([] : List ApiVideoRecord) else []).map (fun r => map_video_record r "catflix"))
    ∧ parse_videos (JsonVal.str "junk") "catflix"
      = Except.error (EngineError.serialization "unexpected videos payload shape") :=
  C10_envelope_defaults [("foo", JsonVal.num 1)] "catflix" (JsonVal.obj [])
    { videos := [], items := [] } (JsonVal.str "junk")
    (by decide) rfl rfl rfl

/- ## List lemmas for the store claims -/

theorem find_upsert_map (q : String) (g : VideoRow → VideoRow)
    (hg : ∀ r : VideoRow, r.id = q → (g r).id = q) :
    ∀ (l : List VideoRow) (r0 : VideoRow),
      l.find? (fun r => r.id = q) = some r0 →
      (l.map (fun r => if r.id = q then g r else r)).find? (fun r => r.id = q)
        = some (g r0)
  | [], r0, h => by simp at h
  | x :: xs, r0, h => by
    rw [List.map_cons]
    by_cases hx : x.id = q
    · have hxb : decide (x.id = q) = true := decide_eq_true hx
      simp only [List.find?, hxb] at h
      injection h with h
      subst h
      have hgb : decide ((g x).id = q) = true := decide_eq_true (hg x hx)
      rw [if_pos hx]
      simp only [List.find?, hgb]
    · have hxb : decide (x.id = q) = false := decide_eq_false hx
      simp only [List.find?, hxb] at h
      rw [if_neg hx]
      simp only [List.find?, hxb]
      exact find_upsert_map q g hg xs r0 h

theorem any_of_find (q : String) (l : List VideoRow) (r0 : VideoRow)
    (h : l.find? (fun r => r.id = q) = some r0) :
    l.any (fun r => r.id = q) = true := by
  rw [List.any_eq_true]
  refine ⟨r0, List.mem_of_find?_eq_some h, ?_⟩
  have hp := List.find?_some h
  exact hp

theorem find?_append_all_neg (p : VideoRow → Bool) :
    ∀ (l l2 : List VideoRow), (∀ r ∈ l, p r = false) →
      (l ++ l2).find? p = l2.find? p
  | [], l2, _ => rfl
  | x :: xs, l2, h => by
    rw [List.cons_append]
    simp only [List.find?, h x (by simp)]
    exact find?_append_all_neg p xs l2 (fun r hr => h r (by simp [hr]))

theorem mem_insertFavDesc (x a : VideoRow) :
    ∀ l : List VideoRow, a ∈ insertFavDesc x l → a = x ∨ a ∈ l
  | [], h => by
    unfold insertFavDesc at h
    exact Or.inl (List.mem_singleton.mp h)
  | y :: ys, h => by
    unfold insertFavDesc at h
    by_cases hlt : cacheDateLt y.favoriteDate x.favoriteDate
    · rw [if_pos hlt] at h
      rcases List.mem_cons.mp h with rfl | h'
      · exact Or.inl rfl
      · exact Or.inr h'
    · rw [if_neg hlt] at h
      rcases List.mem_cons.mp h with rfl | h'
      · exact Or.inr (by simp)
      · rcases mem_insertFavDesc x a ys h' with h'' | h''
        · exact Or.inl h''
        · exact Or.inr (by simp [h''])

theorem mem_sortFavDesc (a : VideoRow) :
    ∀ l : List VideoRow, a ∈ sortFavDesc l → a ∈ l
  | x :: xs, h => by
    unfold sortFavDesc at h
    rcases mem_insertFavDesc x a (sortFavDesc xs) h with rfl | h'
    · simp
    · simp [mem_sortFavDesc a xs h']
  | [], h => by simpa [sortFavDesc] using h

/-- Claim C7: addFavorite upserts full metadata and removeFavorite only
clears the favorite flag - after add then remove, the row is still
queryable by id, its resolved-stream cache metadata (allFormats,
cacheDate) is exactly what it was before, and the id no longer appears in
listFavorites. -/
theorem C7_favorite_add_remove_frame (env : DbEnv) (now now2 now3 : Int)
    (s : DBState) (v : VideoItem) (r0 : VideoRow) (s2 : DBState) (v2 : VideoItem)
    (h0 : s.video_details.find? (fun r => r.id = v.id) = some r0) :
    (∃ r', ((remove_favorite (add_favorite env now s v) v.id).1).video_details.find?
        (fun r => r.id = v.id) = some r'
      ∧ r'.allFormats = r0.allFormats ∧ r'.cacheDate = r0.cacheDate)
    ∧ (((remove_favorite (add_favorite env now2 s2 v2) v2.id).1).video_details.find?
        (fun r => r.id = v2.id)).isSome
    ∧ (∀ f ∈ list_favorites env now3 (remove_favorite (add_favorite env now s v) v.id).1,
        f.video_id ≠ v.id) := by
  have hmergeid : ∀ (r x : VideoRow), r.id = v.id → (addFavMerge r x).id = v.id :=
    fun r x h => h
  have hremid : ∀ r : VideoRow, r.id = v.id →
      ({ r with favoriteDate := none } : VideoRow).id = v.id := fun r h => h
  -- the add step on a state that already has the row
  have hany : s.video_details.any (fun r => r.id = v.id) = true := any_of_find _ _ _ h0
  have hadd : (add_favorite env now s v).video_details
      = s.video_details.map (fun r =>
          if r.id = v.id then addFavMerge r (add_fav_row env now v) else r) := by
    have hid : (add_fav_row env now v).id = v.id := rfl
    unfold add_favorite upsertVideoRow
    rw [hid, if_pos hany]
  refine ⟨?_, ?_, ?_⟩
  · have h1 := find_upsert_map v.id (fun r => addFavMerge r (add_fav_row env now v))
      (fun r h => hmergeid r _ h) s.video_details r0 h0
    rw [← hadd] at h1
    have h2 := find_upsert_map v.id (fun r => { r with favoriteDate := none })
      (fun r h => hremid r h) (add_favorite env now s v).video_details _ h1
    refine ⟨_, h2, rfl, rfl⟩
  · cases h2 : s2.video_details.find? (fun r => r.id = v2.id) with
    | some r0' =>
      have hany2 : s2.video_details.any (fun r => r.id = v2.id) = true :=
        any_of_find _ _ _ h2
      have h1 := find_upsert_map v2.id (fun r => addFavMerge r (add_fav_row env now2 v2))
        (fun r h => h) s2.video_details r0' h2
      have hadd2 : (add_favorite env now2 s2 v2).video_details
          = s2.video_details.map (fun r =>
              if r.id = v2.id then addFavMerge r (add_fav_row env now2 v2) else r) := by
        have hid : (add_fav_row env now2 v2).id = v2.id := rfl
        unfold add_favorite upsertVideoRow
        rw [hid, if_pos hany2]
      rw [← hadd2] at h1
      have h2' := find_upsert_map v2.id (fun r => { r with favoriteDate := none })
        (fun r h => h) (add_favorite env now2 s2 v2).video_details _ h1
      show (((add_favorite env now2 s2 v2).video_details.map (fun r =>
          if r.id = v2.id then { r with favoriteDate := none } else r)).find?
          (fun r => r.id = v2.id)).isSome
      rw [h2']
      rfl
    | none =>
      have hneg : ∀ r ∈ s2.video_details, ¬ r.id = v2.id := by
        intro r hr
        have hx := List.find?_eq_none.mp h2 r hr
        simpa using hx
      have hany2 : s2.video_details.any (fun r => r.id = v2.id) = false := by
        rw [List.any_eq_false]
        intro x hx
        simpa using hneg x hx
      have hadd2 : (add_favorite env now2 s2 v2).video_details
          = s2.video_details ++ [add_fav_row env now2 v2] := by
        have hid : (add_fav_row env now2 v2).id = v2.id := rfl
        unfold add_favorite upsertVideoRow
        rw [hid, if_neg (by simp [hany2])]
      show (((add_favorite env now2 s2 v2).video_details.map (fun r =>
          if r.id = v2.id then { r with favoriteDate := none } else r)).find?
          (fun r => r.id = v2.id)).isSome
      rw [hadd2, List.map_append]
      have hpre : s2.video_details.map (fun r =>
          if r.id = v2.id then { r with favoriteDate := none } else r)
          = s2.video_details :=
        listMapSelf _ s2.video_details (fun r hr => if_neg (hneg r hr))
      rw [hpre]
      rw [find?_append_all_neg _ s2.video_details _
        (fun r hr => decide_eq_false (hneg r hr))]
      have hid2 : ((add_fav_row env now2 v2) : VideoRow).id = v2.id := rfl
      rw [List.map_cons, List.map_nil, if_pos hid2]
      simp [List.find?, hid2]
  · intro f hf
    have hall : ∀ r ∈ ((remove_favorite (add_favorite env now s v) v.id).1).video_details,
        r.id = v.id → r.favoriteDate = none := by
      intro r hr hid
      have hmm : r ∈ (add_favorite env now s v).video_details.map (fun rr =>
          if rr.id = v.id then { rr with favoriteDate := none } else rr) := hr
      obtain ⟨rr, hmem, hrr⟩ := List.mem_map.mp hmm
      by_cases hrid : rr.id = v.id
      · rw [if_pos hrid] at hrr
        rw [← hrr]
      · rw [if_neg hrid] at hrr
        rw [← hrr] at hid
        exact absurd hid hrid
    simp only [list_favorites] at hf
    obtain ⟨row, hrowmem, hfrow⟩ := List.mem_map.mp hf
    have hrowmem2 := mem_sortFavDesc row _ hrowmem
    have hfilt := List.mem_filter.mp hrowmem2
    intro hcontra
    have hfid : f.video_id = row.id := by rw [← hfrow]
    have hrowid : row.id = v.id := by rw [← hfid, hcontra]
    have hfd := hall row hfilt.1 hrowid
    have hblank := hfilt.2
    rw [hfd] at hblank
    simp [blankOrNull] at hblank

/- ## Candidate-selection lemmas for claim C6 -/

theorem bestCandidate_aux :
    ∀ (l : List VideoRow) (acc : Option VideoRow) (r : VideoRow),
      l.foldl (fun acc row =>
        match acc with
        | none => some row
        | some b => if cacheDateLt b.cacheDate row.cacheDate then some row else some b)
        acc = some r →
      acc = some r ∨ r ∈ l
  | [], _, _, h => Or.inl h
  | x :: xs, acc, r, h => by
    rw [List.foldl_cons] at h
    rcases bestCandidate_aux xs _ r h with h' | h'
    · cases acc with
      | none =>
        injection h' with h'
        exact Or.inr (by simp [h'])
      | some b =>
        by_cases hlt : cacheDateLt b.cacheDate x.cacheDate
        · rw [show (match some b with
              | none => some x
              | some b => if cacheDateLt b.cacheDate x.cacheDate then some x else some b)
              = if cacheDateLt b.cacheDate x.cacheDate then some x else some b from rfl,
            if_pos hlt] at h'
          injection h' with h'
          exact Or.inr (by simp [h'])
        · rw [show (match some b with
              | none => some x
              | some b => if cacheDateLt b.cacheDate x.cacheDate then some x else some b)
              = if cacheDateLt b.cacheDate x.cacheDate then some x else some b from rfl,
            if_neg hlt] at h'
          exact Or.inl h'
    · exact Or.inr (by simp [h'])

theorem bestCandidate_mem (l : List VideoRow) (r : VideoRow)
    (h : bestCandidate l = some r) : r ∈ l := by
  rcases bestCandidate_aux l none r h with h' | h'
  · simp at h'
  · exact h'

theorem bestCandidate_fold_isSome :
    ∀ (l : List VideoRow) (acc : Option VideoRow), acc.isSome = true →
      (l.foldl (fun acc row =>
        match acc with
        | none => some row
        | some b => if cacheDateLt b.cacheDate row.cacheDate then some row else some b)
        acc).isSome = true
  | [], _, h => h
  | x :: xs, acc, h => by
    rw [List.foldl_cons]
    apply bestCandidate_fold_isSome xs
    cases acc with
    | none => simp at h
    | some b =>
      by_cases hlt : cacheDateLt b.cacheDate x.cacheDate
      · simp [hlt]
      · simp [hlt]

theorem bestCandidate_isSome (l : List VideoRow) (hne : l ≠ []) :
    (bestCandidate l).isSome = true := by
  cases l with
  | nil => exact absurd rfl hne
  | cons x xs =>
    unfold bestCandidate
    rw [List.foldl_cons]
    exact bestCandidate_fold_isSome xs _ rfl

/- Every cache candidate row after cache_resolved_video carries the fresh
payload and the fresh timestamp. -/
theorem crv_candidates_uniform (env : DbEnv) (now : Int) (s : DBState)
    (u : String) (v : ResolvedVideo) :
    ∀ r ∈ cacheCandidates (cache_resolved_video env now s u v).video_details u,
      r.allFormats = some (env.encodeResolved v)
        ∧ r.cacheDate = some (env.isoOfEpoch now) := by
  intro r hr
  have hfilt := List.mem_filter.mp hr
  have hurl : r.url = u := by
    have hb := hfilt.2
    simp only [Bool.and_eq_true, decide_eq_true_eq] at hb
    exact hb.1
  have hmem := hfilt.1
  unfold cache_resolved_video at hmem
  by_cases hany : (s.video_details.any (fun row => row.url = u)) = true
  · rw [if_pos (by simpa using hany)] at hmem
    simp only [] at hmem
    obtain ⟨row, hrow, hmap⟩ := List.mem_map.mp hmem
    by_cases hru : row.url = u
    · rw [if_pos hru] at hmap
      rw [← hmap]
      exact ⟨rfl, rfl⟩
    · rw [if_neg hru] at hmap
      rw [← hmap] at hurl
      exact absurd hurl hru
  · rw [if_neg (by simpa using hany)] at hmem
    simp only [] at hmem
    have hnone : ∀ row ∈ s.video_details, row.url ≠ u := by
      intro row hrow hc
      apply hany
      rw [List.any_eq_true]
      exact ⟨row, hrow, by simpa using hc⟩
    unfold upsertVideoRow at hmem
    by_cases hid : (s.video_details.any (fun rr => rr.id =
        (rc_new_row (if str_trim v.id = "" then format_resolved_cache_id u else v.id)
          u ((non_empty_str v.title).getD "Resolved Video") (env.isoOfEpoch now)
          (env.encodeResolved v)).id)) = true
    · rw [if_pos (by simpa using hid)] at hmem
      obtain ⟨row, hrow, hmap⟩ := List.mem_map.mp hmem
      by_cases hri : row.id = (rc_new_row (if str_trim v.id = "" then
          format_resolved_cache_id u else v.id) u
          ((non_empty_str v.title).getD "Resolved Video") (env.isoOfEpoch now)
          (env.encodeResolved v)).id
      · rw [if_pos hri] at hmap
        rw [← hmap]
        exact ⟨rfl, rfl⟩
      · rw [if_neg hri] at hmap
        rw [← hmap] at hurl
        exact absurd hurl (hnone row hrow)
    · rw [if_neg (by simpa using hid)] at hmem
      rcases List.mem_append.mp hmem with hold | hnew
      · exact absurd hurl (hnone r hold)
      · rcases List.mem_singleton.mp hnew with rfl
        exact ⟨rfl, rfl⟩

/- After cache_resolved_video the candidate list for the cached url is
never empty (the stored payload is non-blank). -/
theorem crv_candidates_ne_nil (env : DbEnv) (now : Int) (s : DBState)
    (u : String) (v : ResolvedVideo)
    (h3 : str_trim (env.encodeResolved v) ≠ "") :
    cacheCandidates (cache_resolved_video env now s u v).video_details u ≠ [] := by
  have hx : ∃ r ∈ (cache_resolved_video env now s u v).video_details,
      r.url = u ∧ r.allFormats = some (env.encodeResolved v) := by
    unfold cache_resolved_video
    by_cases hany : (s.video_details.any (fun row => row.url = u)) = true
    · rw [if_pos (by simpa using hany)]
      obtain ⟨row, hrow, hbu⟩ := List.any_eq_true.mp hany
      have hru : row.url = u := by simpa using hbu
      refine ⟨_, List.mem_map_of_mem _ hrow, ?_⟩
      rw [if_pos hru]
      exact ⟨hru, rfl⟩
    · rw [if_neg (by simpa using hany)]
      simp only []
      unfold upsertVideoRow
      by_cases hid : (s.video_details.any (fun rr => rr.id =
          (rc_new_row (if str_trim v.id = "" then format_resolved_cache_id u else v.id)
            u ((non_empty_str v.title).getD "Resolved Video") (env.isoOfEpoch now)
            (env.encodeResolved v)).id)) = true
      · rw [if_pos (by simpa using hid)]
        obtain ⟨row, hrow, hbi⟩ := List.any_eq_true.mp hid
        have hri : row.id = (rc_new_row (if str_trim v.id = "" then
            format_resolved_cache_id u else v.id) u
            ((non_empty_str v.title).getD "Resolved Video") (env.isoOfEpoch now)
            (env.encodeResolved v)).id := by simpa using hbi
        refine ⟨_, List.mem_map_of_mem _ hrow, ?_⟩
        rw [if_pos hri]
        exact ⟨rfl, rfl⟩
      · rw [if_neg (by simpa using hid)]
        refine ⟨_, List.mem_append_right _ (List.mem_singleton.mpr rfl), rfl, rfl⟩
  obtain ⟨r, hrmem, hru, hal⟩ := hx
  apply List.ne_nil_of_mem (a := r)
  apply List.mem_filter.mpr
  refine ⟨hrmem, ?_⟩
  simp only [Bool.and_eq_true, decide_eq_true_eq, Bool.not_eq_true']
  exact ⟨hru, by simp [hal, blankOrNull, h3]⟩

/-- Claim C6: a cached resolved stream is returned only while now minus
its stored cacheDate stays within the max age - caching then immediately
reading back yields the same payload (hence the same stream URL and
title), an expired timestamp is a cache miss, an unparsable timestamp is a
cache miss rather than an error, and a raw numeric timestamp is accepted
as epoch seconds or, past the magnitude threshold, epoch milliseconds. -/
theorem C6_resolved_cache_roundtrip_and_expiry (env : DbEnv) (now : Int)
    (s : DBState) (u : String) (v : ResolvedVideo) (maxAge : Int)
    (s5 : DBState) (u5 : String) (maxAge5 : Int) (r5 : VideoRow) (cd5 : String) (ts5 : Int)
    (s6 : DBState) (u6 : String) (maxAge6 : Int) (r6 : VideoRow) (cd6 : String)
    (cd7 : String) (n : Int)
    (h1 : env.decodeResolved (env.encodeResolved v) = some v)
    (h2 : parse_timestamp_to_epoch_seconds env.tp (env.isoOfEpoch now) = some now)
    (h3 : str_trim (env.encodeResolved v) ≠ "")
    (h4 : 0 ≤ maxAge)
    (h5 : bestCandidate (cacheCandidates s5.video_details u5) = some r5)
    (h6 : r5.cacheDate = some cd5)
    (h7 : parse_timestamp_to_epoch_seconds env.tp cd5 = some ts5)
    (h8 : maxAge5 < now - ts5)
    (h9 : bestCandidate (cacheCandidates s6.video_details u6) = some r6)
    (h10 : r6.cacheDate = some cd6)
    (h11 : parse_timestamp_to_epoch_seconds env.tp cd6 = none)
    (h12 : parseI64 (str_trim cd7) = some n) :
    get_cached_resolved_video env now (cache_resolved_video env now s u v) u maxAge
      = Except.ok (some v)
    ∧ get_cached_resolved_video env now s5 u5 maxAge5 = Except.ok none
    ∧ get_cached_resolved_video env now s6 u6 maxAge6 = Except.ok none
    ∧ parse_timestamp_to_epoch_seconds env.tp cd7
        = (if 10000000000 < n then some (n / 1000) else some n) := by
  have hpay5 : ∃ p5, r5.allFormats = some p5 := by
    have hmem := bestCandidate_mem _ _ h5
    have hfilt := List.mem_filter.mp hmem
    cases haf : r5.allFormats with
    | none =>
      have hb := hfilt.2
      rw [Bool.and_eq_true] at hb
      have := hb.2
      rw [haf] at this
      simp [blankOrNull] at this
    | some p => exact ⟨p, rfl⟩
  have hpay6 : ∃ p6, r6.allFormats = some p6 := by
    have hmem := bestCandidate_mem _ _ h9
    have hfilt := List.mem_filter.mp hmem
    cases haf : r6.allFormats with
    | none =>
      have hb := hfilt.2
      rw [Bool.and_eq_true] at hb
      have := hb.2
      rw [haf] at this
      simp [blankOrNull] at this
    | some p => exact ⟨p, rfl⟩
  refine ⟨?_, ?_, ?_, ?_⟩
  · have hne := crv_candidates_ne_nil env now s u v h3
    obtain ⟨rr, hrr⟩ := Option.isSome_iff_exists.mp (bestCandidate_isSome _ hne)
    have hmem := bestCandidate_mem _ _ hrr
    have huni := crv_candidates_uniform env now s u v rr hmem
    unfold get_cached_resolved_video
    rw [hrr]
    simp only [huni.1, huni.2, h2]
    rw [if_neg (by omega)]
    rw [h1]
  · obtain ⟨p5, hp5⟩ := hpay5
    unfold get_cached_resolved_video
    rw [h5]
    simp only [hp5, h6, h7]
    rw [if_pos h8]
  · obtain ⟨p6, hp6⟩ := hpay6
    unfold get_cached_resolved_video
    rw [h9]
    simp only [hp6, h10, h11]
  · have htr : str_trim cd7 ≠ "" := by
      intro hc
      rw [hc] at h12
      exact Option.noConfusion h12
    unfold parse_timestamp_to_epoch_seconds
    rw [if_neg htr]
    simp only [h12]

/-- Claim C6, witness: caching rvX then reading it back at the same
instant returns it; a backdated entry (stored at 3, read at 9 with max age
5) and an unparsable entry are misses; the epoch-milliseconds magnitude
rule at 20000000000. -/
theorem C6_resolved_cache_witness :
    get_cached_resolved_video envW 3
        (cache_resolved_video envW 3 sPlain "https://example.com/v/1" rvX)
        "https://example.com/v/1" 0
      = Except.ok (some rvX)
    ∧ get_cached_resolved_video envW 3 sPlain "https://example.com/v/1" (-1)
      = Except.ok none
    ∧ get_cached_resolved_video envW 3
        { user_preferences := [], video_details := [{ rowPlain with cacheDate := some "junk" }],
          legacy_meta := none, legacy_video_cache := none,
          legacy_favorites := none, legacy_resolved := none }
        "https://example.com/v/1" 100
      = Except.ok none
    ∧ parse_timestamp_to_epoch_seconds envW.tp "20000000000"
      = (if 10000000000 < (20000000000 : Int) then some ((20000000000 : Int) / 1000)
          else some 20000000000) := by
  have h := C6_resolved_cache_roundtrip_and_expiry envW 3 sPlain
    "https://example.com/v/1" rvX 0
    sPlain "https://example.com/v/1" (-1) rowPlain "@3" 3
    { user_preferences := [], video_details := [{ rowPlain with cacheDate := some "junk" }],
      legacy_meta := none, legacy_video_cache := none,
      legacy_favorites := none, legacy_resolved := none }
    "https://example.com/v/1" 100 { rowPlain with cacheDate := some "junk" } "junk"
    "20000000000" 20000000000
    (by decide) (by decide) (by decide) (by decide)
    (by decide) (by decide) (by decide) (by decide)
    (by decide) (by decide) (by decide) (by decide)
  exact h

/-- Claim C7, witness: add then remove on the fixture row leaves the row
findable with its cache metadata and out of the favorites list. -/
theorem C7_favorite_witness :
    (∃ r', ((remove_favorite (add_favorite envW 4 sPlain viX) viX.id).1).video_details.find?
        (fun r => r.id = viX.id) = some r'
      ∧ r'.allFormats = rowPlain.allFormats ∧ r'.cacheDate = rowPlain.cacheDate)
    ∧ (((remove_favorite (add_favorite envW 4 sPlain viX) viX.id).1).video_details.find?
        (fun r => r.id = viX.id)).isSome
    ∧ (∀ f ∈ list_favorites envW 5 (remove_favorite (add_favorite envW 4 sPlain viX) viX.id).1,
        f.video_id ≠ viX.id) :=
  C7_favorite_add_remove_frame envW 4 4 5 sPlain viX rowPlain sPlain viX (by decide)

/- ## Migration lemmas for claim C2 -/

/- Retrying a fold after a partial run equals one full run as soon as each
already-processed element's step fixes the partial result. -/
theorem run_retry {α T : Type} (f : T → α → T) (rows : List α) (k : Nat) (t0 : T)
    (hfix : ∀ a ∈ rows.take k,
      f ((rows.take k).foldl f t0) a = (rows.take k).foldl f t0) :
    rows.foldl f ((rows.take k).foldl f t0) = rows.foldl f t0 := by
  have hsplit : rows.take k ++ rows.drop k = rows := List.take_append_drop k rows
  calc rows.foldl f ((rows.take k).foldl f t0)
      = (rows.take k ++ rows.drop k).foldl f ((rows.take k).foldl f t0) := by
        rw [hsplit]
    _ = (rows.drop k).foldl f ((rows.take k).foldl f ((rows.take k).foldl f t0)) := by
        rw [List.foldl_append]
    _ = (rows.drop k).foldl f ((rows.take k).foldl f t0) := by
        rw [listFoldlFix f _ _ hfix]
    _ = rows.foldl f t0 := by
        rw [← List.foldl_append, hsplit]

/- ### The metadata phase (claim C2) -/

theorem prefUpsert_ready (t : List (String × Option String)) (r : LegacyMetaRow) :
    metaReady (prefUpsert t r.key r.value) r := by
  unfold prefUpsert
  by_cases h : (t.any (fun kv => kv.1 = r.key)) = true
  · rw [if_pos (by simpa using h)]
    obtain ⟨kv0, hkv0, hkey0⟩ := List.any_eq_true.mp h
    have hk : kv0.1 = r.key := by simpa using hkey0
    have hmem : (r.key, some r.value)
        ∈ t.map (fun kv => if kv.1 = r.key then (r.key, some r.value) else kv) := by
      have hx := List.mem_map_of_mem
        (fun kv => if kv.1 = r.key then (r.key, some r.value) else kv) hkv0
      simpa [hk] using hx
    constructor
    · apply List.ne_nil_of_mem (a := (r.key, some r.value))
      exact List.mem_filter.mpr ⟨hmem, by simp⟩
    · intro kv hkv
      have hm := List.mem_filter.mp hkv
      obtain ⟨kv1, hkv1, hmap⟩ := List.mem_map.mp hm.1
      by_cases h1 : kv1.1 = r.key
      · rw [if_pos h1] at hmap
        exact hmap.symm
      · rw [if_neg h1] at hmap
        have h2 := hm.2
        rw [← hmap] at h2
        simp only [decide_eq_true_eq] at h2
        exact absurd h2 h1
  · rw [if_neg (by simpa using h)]
    have hnone : ∀ kv ∈ t, kv.1 ≠ r.key := by
      intro kv hkv hc
      exact h (List.any_eq_true.mpr ⟨kv, hkv, by simpa using hc⟩)
    constructor
    · apply List.ne_nil_of_mem (a := (r.key, some r.value))
      exact List.mem_filter.mpr ⟨List.mem_append_right _ (by simp), by simp⟩
    · intro kv hkv
      have hm := List.mem_filter.mp hkv
      rcases List.mem_append.mp hm.1 with hold | hnew
      · have h2 := hm.2
        simp only [decide_eq_true_eq] at h2
        exact absurd h2 (hnone kv hold)
      · exact List.mem_singleton.mp hnew

theorem filter_map_overwrite_ne (k v q : String) (hq : q ≠ k) :
    ∀ t : List (String × Option String),
      (t.map (fun kv => if kv.1 = k then (k, some v) else kv)).filter
          (fun kv => kv.1 = q)
        = t.filter (fun kv => kv.1 = q)
  | [] => rfl
  | x :: xs => by
    rw [List.map_cons, List.filter_cons, List.filter_cons]
    by_cases hx : x.1 = k
    · rw [if_pos hx]
      have h1 : (decide ((k, some v).1 = q)) = false := by
        simp [Ne.symm hq]
      have h2 : (decide (x.1 = q)) = false := by
        simp [hx, Ne.symm hq]
      rw [h1, h2]
      simp only [Bool.false_eq_true, if_false]
      exact filter_map_overwrite_ne k v q hq xs
    · rw [if_neg hx]
      by_cases hxq : x.1 = q
      · have h2 : (decide (x.1 = q)) = true := by simp [hxq]
        rw [h2]
        simp only [if_true]
        rw [filter_map_overwrite_ne k v q hq xs]
      · have h2 : (decide (x.1 = q)) = false := by simp [hxq]
        rw [h2]
        simp only [Bool.false_eq_true, if_false]
        exact filter_map_overwrite_ne k v q hq xs

theorem prefUpsert_filter_ne (t : List (String × Option String)) (k v q : String)
    (hq : q ≠ k) :
    (prefUpsert t k v).filter (fun kv => kv.1 = q)
      = t.filter (fun kv => kv.1 = q) := by
  unfold prefUpsert
  by_cases h : (t.any (fun kv => kv.1 = k)) = true
  · rw [if_pos (by simpa using h)]
    exact filter_map_overwrite_ne k v q hq t
  · rw [if_neg (by simpa using h)]
    rw [List.filter_append]
    have hx : ([(k, some v)] : List (String × Option String)).filter
        (fun kv => kv.1 = q) = [] := by
      simp [Ne.symm hq]
    rw [hx, List.append_nil]

theorem run_meta_filter_ne (q : String) :
    ∀ (rows : List LegacyMetaRow) (t : List (String × Option String)),
      (∀ r ∈ rows, r.key ≠ q) →
      (run_meta_rows rows t).filter (fun kv => kv.1 = q)
        = t.filter (fun kv => kv.1 = q)
  | [], _, _ => rfl
  | r :: rest, t, h => by
    have hstep : run_meta_rows (r :: rest) t
        = run_meta_rows rest (prefUpsert t r.key r.value) := rfl
    rw [hstep]
    rw [run_meta_filter_ne q rest _ (fun x hx => h x (by simp [hx]))]
    exact prefUpsert_filter_ne t r.key r.value q (Ne.symm (h r (by simp)))

theorem meta_run_ready :
    ∀ (rows : List LegacyMetaRow) (t : List (String × Option String)),
      (rows.map (fun r => r.key)).Nodup →
      ∀ r ∈ rows, metaReady (run_meta_rows rows t) r
  | [], _, _, r, hr => absurd hr (by simp)
  | r0 :: rest, t, hnd, r, hr => by
    have hnd' : (∀ x ∈ rest, ¬ x.key = r0.key)
        ∧ (rest.map (fun r => r.key)).Nodup := by simpa using hnd
    rcases List.mem_cons.mp hr with rfl | hr'
    · have hkeys : ∀ x ∈ rest, x.key ≠ r.key := fun x hx => hnd'.1 x hx
      have hst := prefUpsert_ready t r
      have hstep : run_meta_rows (r :: rest) t
          = run_meta_rows rest (prefUpsert t r.key r.value) := rfl
      constructor
      · rw [hstep, run_meta_filter_ne r.key rest _ hkeys]
        exact hst.1
      · intro kv hkv
        rw [hstep, run_meta_filter_ne r.key rest _ hkeys] at hkv
        exact hst.2 kv hkv
    · exact meta_run_ready rest (prefUpsert t r0.key r0.value) hnd'.2 r hr'

theorem meta_fix (t : List (String × Option String)) (r : LegacyMetaRow)
    (h : metaReady t r) : prefUpsert t r.key r.value = t := by
  obtain ⟨hne, hall⟩ := h
  obtain ⟨kv, hkv⟩ := List.exists_mem_of_ne_nil _ hne
  have hm := List.mem_filter.mp hkv
  have hany : (t.any (fun kv => kv.1 = r.key)) = true :=
    List.any_eq_true.mpr ⟨kv, hm.1, hm.2⟩
  unfold prefUpsert
  rw [if_pos (by simpa using hany)]
  apply listMapSelf
  intro x hx
  by_cases hk : x.1 = r.key
  · rw [if_pos hk]
    exact (hall x (List.mem_filter.mpr ⟨hx, by simpa using hk⟩)).symm
  · rw [if_neg hk]

theorem meta_retry (rows : List LegacyMetaRow) (k : Nat)
    (t : List (String × Option String))
    (hnd : (rows.map (fun r => r.key)).Nodup) :
    run_meta_rows rows (run_meta_rows (rows.take k) t) = run_meta_rows rows t := by
  have hndk : ((rows.take k).map (fun r => r.key)).Nodup := by
    apply List.Nodup.sublist _ hnd
    exact (List.take_sublist k rows).map _
  exact run_retry _ rows k t (fun a ha =>
    meta_fix _ a (meta_run_ready (rows.take k) t hndk a ha))

/- ### Generic video_details upsert lemmas (claim C2) -/

theorem filter_map_merge_ne (new : VideoRow) (m : VideoRow → VideoRow → VideoRow)
    (q : String) (hq : q ≠ new.id) (hid : ∀ cur, (m cur new).id = cur.id) :
    ∀ t : List VideoRow,
      (t.map (fun r => if r.id = new.id then m r new else r)).filter
          (fun row => row.id = q)
        = t.filter (fun row => row.id = q)
  | [] => rfl
  | x :: xs => by
    rw [List.map_cons, List.filter_cons, List.filter_cons]
    by_cases hx : x.id = new.id
    · rw [if_pos hx]
      have h1 : (decide ((m x new).id = q)) = false := by
        simp [hid x, hx, Ne.symm hq]
      have h2 : (decide (x.id = q)) = false := by
        simp [hx, Ne.symm hq]
      rw [h1, h2]
      simp only [Bool.false_eq_true, if_false]
      exact filter_map_merge_ne new m q hq hid xs
    · rw [if_neg hx]
      by_cases hxq : x.id = q
      · have h2 : (decide (x.id = q)) = true := by simp [hxq]
        rw [h2]
        simp only [if_true]
        rw [filter_map_merge_ne new m q hq hid xs]
      · have h2 : (decide (x.id = q)) = false := by simp [hxq]
        rw [h2]
        simp only [Bool.false_eq_true, if_false]
        exact filter_map_merge_ne new m q hq hid xs

theorem upsertVideoRow_filter_ne (t : List VideoRow) (new : VideoRow)
    (m : VideoRow → VideoRow → VideoRow) (q : String) (hq : q ≠ new.id)
    (hid : ∀ cur, (m cur new).id = cur.id) :
    (upsertVideoRow t new m).filter (fun row => row.id = q)
      = t.filter (fun row => row.id = q) := by
  unfold upsertVideoRow
  by_cases h : (t.any (fun r => r.id = new.id)) = true
  · rw [if_pos (by simpa using h)]
    exact filter_map_merge_ne new m q hq hid t
  · rw [if_neg (by simpa using h)]
    rw [List.filter_append]
    have hx : ([new] : List VideoRow).filter (fun row => row.id = q) = [] := by
      simp [Ne.symm hq]
    rw [hx, List.append_nil]

theorem upsertVideoRow_eq_self (t : List VideoRow) (new : VideoRow)
    (m : VideoRow → VideoRow → VideoRow)
    (hex : ∃ row ∈ t, row.id = new.id)
    (hfix : ∀ row ∈ t, row.id = new.id → m row new = row) :
    upsertVideoRow t new m = t := by
  unfold upsertVideoRow
  obtain ⟨row, hrow, hid⟩ := hex
  have hany : (t.any (fun r => r.id = new.id)) = true := by
    rw [List.any_eq_true]
    exact ⟨row, hrow, by simpa using hid⟩
  rw [if_pos (by simpa using hany)]
  apply listMapSelf
  intro x hx
  by_cases hxi : x.id = new.id
  · rw [if_pos hxi]
    exact hfix x hx hxi
  · rw [if_neg hxi]

/- ### The video-cache phase (claim C2) -/

theorem vc_new_row_id (env : DbEnv) (now : Int) (r : LegacyCacheRow) :
    (vc_new_row env now r).id = r.video_id := by
  unfold vc_new_row
  cases env.decodeVideoItem r.payload_json <;> rfl

theorem vc_upsert_ready (env : DbEnv) (now : Int) (t : List VideoRow)
    (r : LegacyCacheRow) :
    vcReady env now (upsertVideoRow t (vc_new_row env now r) vcMerge) r := by
  have hnid : (vc_new_row env now r).id = r.video_id := vc_new_row_id env now r
  unfold upsertVideoRow
  by_cases h : (t.any (fun row => row.id = (vc_new_row env now r).id)) = true
  · rw [if_pos (by simpa using h)]
    obtain ⟨row0, hrow0, hid0⟩ := List.any_eq_true.mp h
    have hid0' : row0.id = r.video_id := by
      rw [← hnid]
      simpa using hid0
    constructor
    · apply List.ne_nil_of_mem (a := vcMerge row0 (vc_new_row env now r))
      apply List.mem_filter.mpr
      constructor
      · have hx := List.mem_map_of_mem
          (fun rr => if rr.id = (vc_new_row env now r).id
            then vcMerge rr (vc_new_row env now r) else rr) hrow0
        simpa [hnid, hid0'] using hx
      · show (decide ((vcMerge row0 (vc_new_row env now r)).id = r.video_id)) = true
        simpa using hid0'
    · intro row hrow
      have hm := List.mem_filter.mp hrow
      obtain ⟨row1, hrow1, hmap⟩ := List.mem_map.mp hm.1
      by_cases h1 : row1.id = (vc_new_row env now r).id
      · rw [if_pos h1] at hmap
        rw [← hmap]
        rfl
      · rw [if_neg h1] at hmap
        have h2 := hm.2
        rw [← hmap] at h2
        simp only [decide_eq_true_eq] at h2
        rw [hnid] at h1
        exact absurd h2 h1
  · rw [if_neg (by simpa using h)]
    have hnone : ∀ row ∈ t, row.id ≠ r.video_id := by
      intro row hrow hc
      exact h (List.any_eq_true.mpr ⟨row, hrow, by simpa [hnid] using hc⟩)
    constructor
    · apply List.ne_nil_of_mem (a := vc_new_row env now r)
      apply List.mem_filter.mpr
      refine ⟨List.mem_append_right _ (by simp), ?_⟩
      show (decide ((vc_new_row env now r).id = r.video_id)) = true
      simpa using hnid
    · intro row hrow
      have hm := List.mem_filter.mp hrow
      rcases List.mem_append.mp hm.1 with hold | hnew2
      · have h2 := hm.2
        simp only [decide_eq_true_eq] at h2
        exact absurd h2 (hnone row hold)
      · obtain rfl := List.mem_singleton.mp hnew2
        rfl

theorem run_vc_filter_ne (env : DbEnv) (now : Int) (q : String) :
    ∀ (rows : List LegacyCacheRow) (t : List VideoRow),
      (∀ r ∈ rows, r.video_id ≠ q) →
      (run_vc_rows env now rows t).filter (fun row => row.id = q)
        = t.filter (fun row => row.id = q)
  | [], _, _ => rfl
  | r :: rest, t, h => by
    have hstep : run_vc_rows env now (r :: rest) t
        = run_vc_rows env now rest (upsertVideoRow t (vc_new_row env now r) vcMerge) := rfl
    rw [hstep, run_vc_filter_ne env now q rest _ (fun x hx => h x (by simp [hx]))]
    apply upsertVideoRow_filter_ne t (vc_new_row env now r) vcMerge q
    · rw [vc_new_row_id]
      exact Ne.symm (h r (by simp))
    · intro cur
      rfl

theorem vc_run_ready (env : DbEnv) (now : Int) :
    ∀ (rows : List LegacyCacheRow) (t : List VideoRow),
      (rows.map (fun r => r.video_id)).Nodup →
      ∀ r ∈ rows, vcReady env now (run_vc_rows env now rows t) r
  | [], _, _, r, hr => absurd hr (by simp)
  | r0 :: rest, t, hnd, r, hr => by
    have hnd' : (∀ x ∈ rest, ¬ x.video_id = r0.video_id)
        ∧ (rest.map (fun r => r.video_id)).Nodup := by simpa using hnd
    rcases List.mem_cons.mp hr with rfl | hr'
    · have hkeys : ∀ x ∈ rest, x.video_id ≠ r.video_id := fun x hx => hnd'.1 x hx
      have hst := vc_upsert_ready env now t r
      have hstep : run_vc_rows env now (r :: rest) t
          = run_vc_rows env now rest (upsertVideoRow t (vc_new_row env now r) vcMerge) := rfl
      constructor
      · rw [hstep, run_vc_filter_ne env now r.video_id rest _ hkeys]
        exact hst.1
      · intro row hrow
        rw [hstep, run_vc_filter_ne env now r.video_id rest _ hkeys] at hrow
        exact hst.2 row hrow
    · exact vc_run_ready env now rest
        (upsertVideoRow t (vc_new_row env now r0) vcMerge) hnd'.2 r hr'

theorem vc_fix (env : DbEnv) (now : Int) (t : List VideoRow) (r : LegacyCacheRow)
    (h : vcReady env now t r) :
    upsertVideoRow t (vc_new_row env now r) vcMerge = t := by
  obtain ⟨hne, hall⟩ := h
  obtain ⟨row, hrow⟩ := List.exists_mem_of_ne_nil _ hne
  have hm := List.mem_filter.mp hrow
  apply upsertVideoRow_eq_self
  · refine ⟨row, hm.1, ?_⟩
    rw [vc_new_row_id]
    simpa using hm.2
  · intro x hx hxi
    rw [vc_new_row_id] at hxi
    exact hall x (List.mem_filter.mpr ⟨hx, by simpa using hxi⟩)

theorem vc_retry (env : DbEnv) (now : Int) (rows : List LegacyCacheRow) (k : Nat)
    (t : List VideoRow) (hnd : (rows.map (fun r => r.video_id)).Nodup) :
    run_vc_rows env now rows (run_vc_rows env now (rows.take k) t)
      = run_vc_rows env now rows t := by
  have hndk : ((rows.take k).map (fun r => r.video_id)).Nodup := by
    apply List.Nodup.sublist _ hnd
    exact (List.take_sublist k rows).map _
  exact run_retry _ rows k t (fun a ha =>
    vc_fix env now _ a (vc_run_ready env now (rows.take k) t hndk a ha))

/- ### The favorites phase (claim C2).  The step's new row reads the
current table only for the url column, which the ON CONFLICT SET list does
not touch, so the merge result is table-independent. -/

theorem fav_merge_table_irrelevant (env : DbEnv) (now : Int)
    (t t2 : List VideoRow) (r : LegacyFavRow) (row : VideoRow) :
    favMerge row (fav_new_row env now t r) = favMerge row (fav_new_row env now t2 r) := rfl

theorem fav_new_row_id (env : DbEnv) (now : Int) (t : List VideoRow)
    (r : LegacyFavRow) : (fav_new_row env now t r).id = r.video_id := rfl

theorem fav_upsert_ready (env : DbEnv) (now : Int) (t : List VideoRow)
    (r : LegacyFavRow) :
    favReady env now (upsertVideoRow t (fav_new_row env now t r) favMerge) r := by
  unfold upsertVideoRow
  by_cases h : (t.any (fun row => row.id = (fav_new_row env now t r).id)) = true
  · rw [if_pos (by simpa using h)]
    obtain ⟨row0, hrow0, hid0⟩ := List.any_eq_true.mp h
    have hid0' : row0.id = r.video_id := by simpa using hid0
    constructor
    · apply List.ne_nil_of_mem (a := favMerge row0 (fav_new_row env now t r))
      apply List.mem_filter.mpr
      constructor
      · have hx := List.mem_map_of_mem
          (fun rr => if rr.id = (fav_new_row env now t r).id
            then favMerge rr (fav_new_row env now t r) else rr) hrow0
        simpa [fav_new_row_id, hid0'] using hx
      · show (decide ((favMerge row0 (fav_new_row env now t r)).id = r.video_id)) = true
        simpa using hid0'
    · intro row hrow
      have hm := List.mem_filter.mp hrow
      obtain ⟨row1, hrow1, hmap⟩ := List.mem_map.mp hm.1
      by_cases h1 : row1.id = (fav_new_row env now t r).id
      · rw [if_pos h1] at hmap
        rw [← hmap]
        rfl
      · rw [if_neg h1] at hmap
        have h2 := hm.2
        rw [← hmap] at h2
        simp only [decide_eq_true_eq] at h2
        exact absurd h2 h1
  · rw [if_neg (by simpa using h)]
    have hnone : ∀ row ∈ t, row.id ≠ r.video_id := by
      intro row hrow hc
      exact h (List.any_eq_true.mpr ⟨row, hrow, by simpa using hc⟩)
    constructor
    · apply List.ne_nil_of_mem (a := fav_new_row env now t r)
      apply List.mem_filter.mpr
      exact ⟨List.mem_append_right _ (by simp), by simp [fav_new_row_id]⟩
    · intro row hrow
      have hm := List.mem_filter.mp hrow
      rcases List.mem_append.mp hm.1 with hold | hnew2
      · have h2 := hm.2
        simp only [decide_eq_true_eq] at h2
        exact absurd h2 (hnone row hold)
      · obtain rfl := List.mem_singleton.mp hnew2
        rfl

theorem run_fav_filter_ne (env : DbEnv) (now : Int) (q : String) :
    ∀ (rows : List LegacyFavRow) (t : List VideoRow),
      (∀ r ∈ rows, r.video_id ≠ q) →
      (run_fav_rows env now rows t).filter (fun row => row.id = q)
        = t.filter (fun row => row.id = q)
  | [], _, _ => rfl
  | r :: rest, t, h => by
    have hstep : run_fav_rows env now (r :: rest) t
        = run_fav_rows env now rest
            (upsertVideoRow t (fav_new_row env now t r) favMerge) := rfl
    rw [hstep, run_fav_filter_ne env now q rest _ (fun x hx => h x (by simp [hx]))]
    apply upsertVideoRow_filter_ne t (fav_new_row env now t r) favMerge q
    · exact Ne.symm (h r (by simp))
    · intro cur
      rfl

theorem fav_run_ready (env : DbEnv) (now : Int) :
    ∀ (rows : List LegacyFavRow) (t : List VideoRow),
      (rows.map (fun r => r.video_id)).Nodup →
      ∀ r ∈ rows, favReady env now (run_fav_rows env now rows t) r
  | [], _, _, r, hr => absurd hr (by simp)
  | r0 :: rest, t, hnd, r, hr => by
    have hnd' : (∀ x ∈ rest, ¬ x.video_id = r0.video_id)
        ∧ (rest.map (fun r => r.video_id)).Nodup := by simpa using hnd
    rcases List.mem_cons.mp hr with rfl | hr'
    · have hkeys : ∀ x ∈ rest, x.video_id ≠ r.video_id := fun x hx => hnd'.1 x hx
      have hst := fav_upsert_ready env now t r
      have hstep : run_fav_rows env now (r :: rest) t
          = run_fav_rows env now rest
              (upsertVideoRow t (fav_new_row env now t r) favMerge) := rfl
      constructor
      · rw [hstep, run_fav_filter_ne env now r.video_id rest _ hkeys]
        exact hst.1
      · intro row hrow
        rw [hstep, run_fav_filter_ne env now r.video_id rest _ hkeys] at hrow
        exact hst.2 row hrow
    · exact fav_run_ready env now rest
        (upsertVideoRow t (fav_new_row env now t r0) favMerge) hnd'.2 r hr'

theorem fav_fix (env : DbEnv) (now : Int) (t : List VideoRow) (r : LegacyFavRow)
    (h : favReady env now t r) :
    upsertVideoRow t (fav_new_row env now t r) favMerge = t := by
  obtain ⟨hne, hall⟩ := h
  obtain ⟨row, hrow⟩ := List.exists_mem_of_ne_nil _ hne
  have hm := List.mem_filter.mp hrow
  apply upsertVideoRow_eq_self
  · exact ⟨row, hm.1, by simpa using hm.2⟩
  · intro x hx hxi
    exact hall x (List.mem_filter.mpr ⟨hx, by simpa using hxi⟩)

theorem fav_retry (env : DbEnv) (now : Int) (rows : List LegacyFavRow) (k : Nat)
    (t : List VideoRow) (hnd : (rows.map (fun r => r.video_id)).Nodup) :
    run_fav_rows env now rows (run_fav_rows env now (rows.take k) t)
      = run_fav_rows env now rows t := by
  have hndk : ((rows.take k).map (fun r => r.video_id)).Nodup := by
    apply List.Nodup.sublist _ hnd
    exact (List.take_sublist k rows).map _
  exact run_retry _ rows k t (fun a ha =>
    fav_fix env now _ a (fav_run_ready env now (rows.take k) t hndk a ha))

/- ### The resolved-cache phase (claim C2) -/

theorem rc_row_title_ne (env : DbEnv) (r : LegacyResolvedRow) :
    rc_row_title env r ≠ "" := by
  unfold rc_row_title
  cases env.decodeResolved r.payload_json with
  | none => decide
  | some v =>
    simp only []
    by_cases h : str_trim v.title = ""
    · rw [if_pos h]
      decide
    · rw [if_neg h]
      exact h

theorem rcUpdate_idem (p iso ttl : String) (row : VideoRow) :
    rcUpdateRow p iso ttl (rcUpdateRow p iso ttl row)
      = rcUpdateRow p iso ttl row := by
  unfold rcUpdateRow
  by_cases h : ttl = "" <;> simp [h]

theorem rcUpdate_new (i u ttl iso p : String) (hne : ttl ≠ "") :
    rcUpdateRow p iso ttl (rc_new_row i u ttl iso p) = rc_new_row i u ttl iso p := by
  unfold rcUpdateRow rc_new_row
  simp [hne]

theorem rc_step_matched (env : DbEnv) (now : Int) (t : List VideoRow)
    (r : LegacyResolvedRow) (h : ∃ row ∈ t, row.url = r.page_url) :
    rc_step env now t r = t.map (fun row =>
      if row.url = r.page_url then
        rcUpdateRow r.payload_json (epoch_seconds_to_iso env now r.updated_at)
          (rc_row_title env r) row
      else row) := by
  obtain ⟨row, hrow, hu⟩ := h
  have hany : (t.any (fun row => row.url = r.page_url)) = true :=
    List.any_eq_true.mpr ⟨row, hrow, by simpa using hu⟩
  unfold rc_step
  rw [if_pos (by simpa using hany)]

theorem rc_step_fresh (env : DbEnv) (now : Int) (t : List VideoRow)
    (r : LegacyResolvedRow)
    (hno : ∀ row ∈ t, row.url ≠ r.page_url)
    (hid : ∀ row ∈ t, row.id ≠ rc_row_id env r) :
    rc_step env now t r = t ++ [rc_new_row (rc_row_id env r) r.page_url
      (rc_row_title env r) (epoch_seconds_to_iso env now r.updated_at)
      r.payload_json] := by
  have hany : (t.any (fun row => row.url = r.page_url)) = false := by
    rw [List.any_eq_false]
    intro row hrow
    simpa using hno row hrow
  unfold rc_step
  rw [if_neg (by simp [hany])]
  unfold upsertVideoRow
  have hany2 : (t.any (fun rr => rr.id = (rc_new_row (rc_row_id env r) r.page_url
      (rc_row_title env r) (epoch_seconds_to_iso env now r.updated_at)
      r.payload_json).id)) = false := by
    rw [List.any_eq_false]
    intro row hrow
    simpa using hid row hrow
  rw [if_neg (by simp [hany2])]

theorem filter_map_urlupd_ne (U2 U p iso ttl : String) (hq : U ≠ U2) :
    ∀ t : List VideoRow,
      ((t.map (fun row => if row.url = U2 then rcUpdateRow p iso ttl row else row)).filter
          (fun row => row.url = U))
        = t.filter (fun row => row.url = U)
  | [] => rfl
  | x :: xs => by
    rw [List.map_cons, List.filter_cons, List.filter_cons]
    by_cases hx : x.url = U2
    · rw [if_pos hx]
      have h1 : (decide ((rcUpdateRow p iso ttl x).url = U)) = false := by
        show (decide (x.url = U)) = false
        simp [hx, Ne.symm hq]
      have h2 : (decide (x.url = U)) = false := by
        simp [hx, Ne.symm hq]
      rw [h1, h2]
      simp only [Bool.false_eq_true, if_false]
      exact filter_map_urlupd_ne U2 U p iso ttl hq xs
    · rw [if_neg hx]
      by_cases hxq : x.url = U
      · have h2 : (decide (x.url = U)) = true := by simp [hxq]
        rw [h2]
        simp only [if_true]
        rw [filter_map_urlupd_ne U2 U p iso ttl hq xs]
      · have h2 : (decide (x.url = U)) = false := by simp [hxq]
        rw [h2]
        simp only [Bool.false_eq_true, if_false]
        exact filter_map_urlupd_ne U2 U p iso ttl hq xs

/- Transport of the per-row precondition across one earlier step. -/
theorem rcHyp_step (env : DbEnv) (now : Int) (t : List VideoRow)
    (h r2 : LegacyResolvedRow)
    (hh : rcHyp env t h) (hr2 : rcHyp env t r2)
    (hu : r2.page_url ≠ h.page_url) (hi : rc_row_id env r2 ≠ rc_row_id env h) :
    rcHyp env (rc_step env now t h) r2 := by
  rcases hh with hmatch | hfresh
  · rw [rc_step_matched env now t h hmatch]
    rcases hr2 with ⟨row, hrow, hu2⟩ | ⟨hnou, hnoid⟩
    · left
      refine ⟨_, List.mem_map_of_mem _ hrow, ?_⟩
      by_cases hru : row.url = h.page_url
      · exact absurd (hu2.symm.trans hru) hu
      · rw [if_neg hru]
        exact hu2
    · right
      constructor
      · intro row2 hrow2
        obtain ⟨row, hrow, hmap⟩ := List.mem_map.mp hrow2
        by_cases hru : row.url = h.page_url
        · rw [if_pos hru] at hmap
          have hurl : row2.url = row.url := by
            rw [← hmap]
            rfl
          rw [hurl]
          exact hnou row hrow
        · rw [if_neg hru] at hmap
          rw [← hmap]
          exact hnou row hrow
      · intro row2 hrow2
        obtain ⟨row, hrow, hmap⟩ := List.mem_map.mp hrow2
        by_cases hru : row.url = h.page_url
        · rw [if_pos hru] at hmap
          have hid2 : row2.id = row.id := by
            rw [← hmap]
            rfl
          rw [hid2]
          exact hnoid row hrow
        · rw [if_neg hru] at hmap
          rw [← hmap]
          exact hnoid row hrow
  · rw [rc_step_fresh env now t h hfresh.1 hfresh.2]
    rcases hr2 with ⟨row, hrow, hu2⟩ | ⟨hnou, hnoid⟩
    · exact Or.inl ⟨row, List.mem_append_left _ hrow, hu2⟩
    · right
      constructor
      · intro row2 hrow2
        rcases List.mem_append.mp hrow2 with hold | hnew
        · exact hnou row2 hold
        · obtain rfl := List.mem_singleton.mp hnew
          show h.page_url ≠ r2.page_url
          exact Ne.symm hu
      · intro row2 hrow2
        rcases List.mem_append.mp hrow2 with hold | hnew
        · exact hnoid row2 hold
        · obtain rfl := List.mem_singleton.mp hnew
          show rc_row_id env h ≠ rc_row_id env r2
          exact Ne.symm hi

/- Readiness for one legacy row is preserved by a step for a different
page url. -/
theorem rcReady_preserved (env : DbEnv) (now : Int) (t : List VideoRow)
    (h r2 : LegacyResolvedRow)
    (hready : rcReady env now t h) (hr2 : rcHyp env t r2)
    (hu : r2.page_url ≠ h.page_url) :
    rcReady env now (rc_step env now t r2) h := by
  rcases hr2 with hmatch | hfresh
  · rw [rc_step_matched env now t r2 hmatch]
    obtain ⟨hne, hall⟩ := hready
    constructor
    · rw [filter_map_urlupd_ne r2.page_url h.page_url _ _ _ (Ne.symm hu)]
      exact hne
    · intro row hrow
      rw [filter_map_urlupd_ne r2.page_url h.page_url _ _ _ (Ne.symm hu)] at hrow
      exact hall row hrow
  · rw [rc_step_fresh env now t r2 hfresh.1 hfresh.2]
    obtain ⟨hne, hall⟩ := hready
    have hfx : (([rc_new_row (rc_row_id env r2) r2.page_url (rc_row_title env r2)
        (epoch_seconds_to_iso env now r2.updated_at) r2.payload_json] :
          List VideoRow).filter (fun row => row.url = h.page_url)) = [] := by
      simp [rc_new_row, hu]
    constructor
    · rw [List.filter_append, hfx, List.append_nil]
      exact hne
    · intro row hrow
      rw [List.filter_append, hfx, List.append_nil] at hrow
      exact hall row hrow

/- One step establishes readiness for its own legacy row. -/
theorem rc_step_ready (env : DbEnv) (now : Int) (t : List VideoRow)
    (r : LegacyResolvedRow) (hr : rcHyp env t r) :
    rcReady env now (rc_step env now t r) r := by
  rcases hr with ⟨row0, hrow0, hu0⟩ | ⟨hnou, hnoid⟩
  · rw [rc_step_matched env now t r ⟨row0, hrow0, hu0⟩]
    constructor
    · apply List.ne_nil_of_mem
        (a := rcUpdateRow r.payload_json (epoch_seconds_to_iso env now r.updated_at)
          (rc_row_title env r) row0)
      apply List.mem_filter.mpr
      constructor
      · have hx := List.mem_map_of_mem
          (fun row => if row.url = r.page_url then
            rcUpdateRow r.payload_json (epoch_seconds_to_iso env now r.updated_at)
              (rc_row_title env r) row
          else row) hrow0
        simpa [hu0] using hx
      · show (decide ((rcUpdateRow r.payload_json _ _ row0).url = r.page_url)) = true
        have : (rcUpdateRow r.payload_json (epoch_seconds_to_iso env now r.updated_at)
            (rc_row_title env r) row0).url = row0.url := rfl
        simp [this, hu0]
    · intro row hrow
      have hm := List.mem_filter.mp hrow
      obtain ⟨row1, hrow1, hmap⟩ := List.mem_map.mp hm.1
      by_cases h1 : row1.url = r.page_url
      · rw [if_pos h1] at hmap
        rw [← hmap]
        exact rcUpdate_idem _ _ _ row1
      · rw [if_neg h1] at hmap
        have h2 := hm.2
        rw [← hmap] at h2
        simp only [decide_eq_true_eq] at h2
        exact absurd h2 h1
  · rw [rc_step_fresh env now t r hnou hnoid]
    constructor
    · apply List.ne_nil_of_mem (a := rc_new_row (rc_row_id env r) r.page_url
        (rc_row_title env r) (epoch_seconds_to_iso env now r.updated_at) r.payload_json)
      apply List.mem_filter.mpr
      refine ⟨List.mem_append_right _ (by simp), ?_⟩
      show (decide ((rc_new_row _ r.page_url _ _ _).url = r.page_url)) = true
      simp [rc_new_row]
    · intro row hrow
      have hm := List.mem_filter.mp hrow
      rcases List.mem_append.mp hm.1 with hold | hnew
      · have h2 := hm.2
        simp only [decide_eq_true_eq] at h2
        exact absurd h2 (hnou row hold)
      · obtain rfl := List.mem_singleton.mp hnew
        exact rcUpdate_new _ _ _ _ _ (rc_row_title_ne env r)

theorem rc_run_preserves (env : DbEnv) (now : Int) (h : LegacyResolvedRow) :
    ∀ (rows : List LegacyResolvedRow) (t : List VideoRow),
      (∀ r2 ∈ rows, rcHyp env t r2) →
      (∀ r2 ∈ rows, r2.page_url ≠ h.page_url) →
      (rows.map (fun r => r.page_url)).Nodup →
      (rows.map (fun r => rc_row_id env r)).Nodup →
      rcReady env now t h →
      rcReady env now (run_rc_rows env now rows t) h
  | [], _, _, _, _, _, hready => hready
  | r0 :: rest, t, hhyp, hneh, hndu, hndi, hready => by
    have hndu' : (∀ x ∈ rest, ¬ x.page_url = r0.page_url)
        ∧ (rest.map (fun r => r.page_url)).Nodup := by simpa using hndu
    have hndi' : (∀ x ∈ rest, ¬ rc_row_id env x = rc_row_id env r0)
        ∧ (rest.map (fun r => rc_row_id env r)).Nodup := by simpa using hndi
    have hstep : run_rc_rows env now (r0 :: rest) t
        = run_rc_rows env now rest (rc_step env now t r0) := rfl
    rw [hstep]
    apply rc_run_preserves env now h rest (rc_step env now t r0)
    · intro r2 hr2
      exact rcHyp_step env now t r0 r2 (hhyp r0 (by simp))
        (hhyp r2 (by simp [hr2])) (hndu'.1 r2 hr2) (hndi'.1 r2 hr2)
    · intro r2 hr2
      exact hneh r2 (by simp [hr2])
    · exact hndu'.2
    · exact hndi'.2
    · exact rcReady_preserved env now t h r0 hready (hhyp r0 (by simp))
        (hneh r0 (by simp))

theorem rc_run_ready (env : DbEnv) (now : Int) :
    ∀ (rows : List LegacyResolvedRow) (t : List VideoRow),
      (rows.map (fun r => r.page_url)).Nodup →
      (rows.map (fun r => rc_row_id env r)).Nodup →
      (∀ r ∈ rows, rcHyp env t r) →
      ∀ r ∈ rows, rcReady env now (run_rc_rows env now rows t) r
  | [], _, _, _, _, r, hr => absurd hr (by simp)
  | r0 :: rest, t, hndu, hndi, hhyp, r, hr => by
    have hndu' : (∀ x ∈ rest, ¬ x.page_url = r0.page_url)
        ∧ (rest.map (fun r => r.page_url)).Nodup := by simpa using hndu
    have hndi' : (∀ x ∈ rest, ¬ rc_row_id env x = rc_row_id env r0)
        ∧ (rest.map (fun r => rc_row_id env r)).Nodup := by simpa using hndi
    have hstep : run_rc_rows env now (r0 :: rest) t
        = run_rc_rows env now rest (rc_step env now t r0) := rfl
    rcases List.mem_cons.mp hr with rfl | hr'
    · rw [hstep]
      apply rc_run_preserves env now r rest (rc_step env now t r)
      · intro r2 hr2
        exact rcHyp_step env now t r r2 (hhyp r (by simp))
          (hhyp r2 (by simp [hr2])) (hndu'.1 r2 hr2) (hndi'.1 r2 hr2)
      · intro r2 hr2
        exact hndu'.1 r2 hr2
      · exact hndu'.2
      · exact hndi'.2
      · exact rc_step_ready env now t r (hhyp r (by simp))
    · rw [hstep]
      apply rc_run_ready env now rest (rc_step env now t r0) hndu'.2 hndi'.2
      · intro r2 hr2
        exact rcHyp_step env now t r0 r2 (hhyp r0 (by simp))
          (hhyp r2 (by simp [hr2])) (hndu'.1 r2 hr2) (hndi'.1 r2 hr2)
      · exact hr'

theorem rc_fix (env : DbEnv) (now : Int) (t : List VideoRow)
    (r : LegacyResolvedRow) (hready : rcReady env now t r) :
    rc_step env now t r = t := by
  obtain ⟨hne, hall⟩ := hready
  obtain ⟨row, hrow⟩ := List.exists_mem_of_ne_nil _ hne
  have hm := List.mem_filter.mp hrow
  have hmm : ∃ rr ∈ t, rr.url = r.page_url := ⟨row, hm.1, by simpa using hm.2⟩
  rw [rc_step_matched env now t r hmm]
  apply listMapSelf
  intro x hx
  by_cases hxu : x.url = r.page_url
  · rw [if_pos hxu]
    exact hall x (List.mem_filter.mpr ⟨hx, by simpa using hxu⟩)
  · rw [if_neg hxu]

theorem rc_retry (env : DbEnv) (now : Int) (rows : List LegacyResolvedRow)
    (k : Nat) (t : List VideoRow)
    (hndu : (rows.map (fun r => r.page_url)).Nodup)
    (hndi : (rows.map (fun r => rc_row_id env r)).Nodup)
    (hhyp : ∀ r ∈ rows, rcHyp env t r) :
    run_rc_rows env now rows (run_rc_rows env now (rows.take k) t)
      = run_rc_rows env now rows t := by
  have hnduk : ((rows.take k).map (fun r => r.page_url)).Nodup := by
    apply List.Nodup.sublist _ hndu
    exact (List.take_sublist k rows).map _
  have hndik : ((rows.take k).map (fun r => rc_row_id env r)).Nodup := by
    apply List.Nodup.sublist _ hndi
    exact (List.take_sublist k rows).map _
  exact run_retry _ rows k t (fun a ha =>
    rc_fix env now _ a (rc_run_ready env now (rows.take k) t hnduk hndik
      (fun r hr => hhyp r ((List.take_sublist k rows).subset hr)) a ha))

/-- Claim C2, counterexample: running init on a store holding all four
legacy-generation tables leaves every legacy table present - migration
never drops them - so a second init is not "a no-op because the legacy
tables are absent": it re-runs the migration over them. -/
theorem C2_counterexample_legacy_tables_not_dropped :
    (db_init envW 0 sLegacy).legacy_meta ≠ none
    ∧ (db_init envW 0 sLegacy).legacy_video_cache ≠ none
    ∧ (db_init envW 0 sLegacy).legacy_favorites ≠ none
    ∧ (db_init envW 0 sLegacy).legacy_resolved ≠ none := by
  decide

/-- Claim C2 as amended: the legacy migration inside init never drops the
legacy tables, so re-running init re-executes the migration; it is
nevertheless idempotent on the stored data because every step is an
upsert writing values derived only from the legacy rows: a store with no
legacy tables is left untouched, and for each phase - metadata,
video-cache, favorites (unique legacy primary keys), and resolved-streams
(unique legacy page urls where each entry either matches an existing row
by url or is wholly fresh) - a partially completed pass followed by a full
retry produces exactly the rows of a single complete pass (taking the
whole list as the partial prefix gives plain idempotence). -/
theorem C2_migration_idempotent_upserts (env : DbEnv) (now : Int) (s : DBState)
    (mrows : List LegacyMetaRow) (prefs : List (String × Option String)) (km : Nat)
    (vrows : List LegacyCacheRow) (vt : List VideoRow) (kv : Nat)
    (frows : List LegacyFavRow) (ft : List VideoRow) (kf : Nat)
    (rrows : List LegacyResolvedRow) (rt : List VideoRow) (kr : Nat)
    (hm : (mrows.map (fun r => r.key)).Nodup)
    (hv : (vrows.map (fun r => r.video_id)).Nodup)
    (hf : (frows.map (fun r => r.video_id)).Nodup)
    (hru : (rrows.map (fun r => r.page_url)).Nodup)
    (hri : (rrows.map (fun r => rc_row_id env r)).Nodup)
    (hrh : ∀ r ∈ rrows, rcHyp env rt r) :
    ((db_init env now s).legacy_meta = s.legacy_meta
      ∧ (db_init env now s).legacy_video_cache = s.legacy_video_cache
      ∧ (db_init env now s).legacy_favorites = s.legacy_favorites
      ∧ (db_init env now s).legacy_resolved = s.legacy_resolved)
    ∧ (s.legacy_meta = none → s.legacy_video_cache = none →
        s.legacy_favorites = none → s.legacy_resolved = none →
        db_init env now s = s)
    ∧ run_meta_rows mrows (run_meta_rows (mrows.take km) prefs)
        = run_meta_rows mrows prefs
    ∧ run_vc_rows env now vrows (run_vc_rows env now (vrows.take kv) vt)
        = run_vc_rows env now vrows vt
    ∧ run_fav_rows env now frows (run_fav_rows env now (frows.take kf) ft)
        = run_fav_rows env now frows ft
    ∧ run_rc_rows env now rrows (run_rc_rows env now (rrows.take kr) rt)
        = run_rc_rows env now rrows rt := by
  refine ⟨?_, ?_, meta_retry mrows km prefs hm, vc_retry env now vrows kv vt hv,
    fav_retry env now frows kf ft hf, rc_retry env now rrows kr rt hru hri hrh⟩
  · obtain ⟨up, vd, lm, lvc, lf, lr⟩ := s
    unfold db_init migrate_legacy_schema
    cases lm <;> cases lvc <;> cases lf <;> cases lr <;> simp
  · intro h1 h2 h3 h4
    obtain ⟨up, vd, lm, lvc, lf, lr⟩ := s
    simp only [] at h1 h2 h3 h4
    subst h1
    subst h2
    subst h3
    subst h4
    rfl

/-- Claim C2, witness: the amended theorem applied to a store carrying one
row of each legacy generation (partial prefix of length one). -/
theorem C2_migration_witness :
    ((db_init envW 0 sLegacy).legacy_meta = sLegacy.legacy_meta
      ∧ (db_init envW 0 sLegacy).legacy_video_cache = sLegacy.legacy_video_cache
      ∧ (db_init envW 0 sLegacy).legacy_favorites = sLegacy.legacy_favorites
      ∧ (db_init envW 0 sLegacy).legacy_resolved = sLegacy.legacy_resolved)
    ∧ (sLegacy.legacy_meta = none → sLegacy.legacy_video_cache = none →
        sLegacy.legacy_favorites = none → sLegacy.legacy_resolved = none →
        db_init envW 0 sLegacy = sLegacy)
    ∧ run_meta_rows [{ key := "a", value := "1" }]
        (run_meta_rows ([{ key := "a", value := "1" }].take 1) [])
        = run_meta_rows [{ key := "a", value := "1" }] []
    ∧ run_vc_rows envW 0 [{ video_id := "video-1", payload_json := "VI", updated_at := 5 }]
        (run_vc_rows envW 0
          ([{ video_id := "video-1", payload_json := "VI", updated_at := 5 }].take 1) [])
        = run_vc_rows envW 0
            [{ video_id := "video-1", payload_json := "VI", updated_at := 5 }] []
    ∧ run_fav_rows envW 0
        [{ video_id := "fav-1", title := "Fav", image_url := none, network := none, added_at := 6 }]
        (run_fav_rows envW 0
          ([{ video_id := "fav-1", title := "Fav", image_url := none, network := none, added_at := 6 }].take 1) [])
        = run_fav_rows envW 0
            [{ video_id := "fav-1", title := "Fav", image_url := none, network := none, added_at := 6 }] []
    ∧ run_rc_rows envW 0
        [{ page_url := "https://example.com/v/9", payload_json := "RP", updated_at := 7 }]
        (run_rc_rows envW 0
          ([{ page_url := "https://example.com/v/9", payload_json := "RP", updated_at := 7 }].take 1)
          [rowPlain])
        = run_rc_rows envW 0
            [{ page_url := "https://example.com/v/9", payload_json := "RP", updated_at := 7 }]
            [rowPlain] :=
  C2_migration_idempotent_upserts envW 0 sLegacy
    [{ key := "a", value := "1" }] [] 1
    [{ video_id := "video-1", payload_json := "VI", updated_at := 5 }] [] 1
    [{ video_id := "fav-1", title := "Fav", image_url := none, network := none, added_at := 6 }] [] 1
    [{ page_url := "https://example.com/v/9", payload_json := "RP", updated_at := 7 }] [rowPlain] 1
    (by decide) (by decide) (by decide) (by decide) (by decide)
    (by
      intro r hr
      obtain rfl := List.mem_singleton.mp hr
      unfold rcHyp
      right
      exact ⟨by decide, by decide⟩)
